import Mathlib

/-!
Verification of the slide-extraction core of the `cs7980` repository.

Python strings are modelled as `List Char`, Python floats as exact numbers
(`ℚ` where the code only ever needs field/order operations that stay rational,
`ℝ` for the vector-cosine similarity which involves square roots and
logarithms).  Stateful loops are modelled by explicit state passing.
-/

set_option maxHeartbeats 1000000
set_option maxRecDepth 16000

/-- Python strings, modelled as lists of characters. -/
abbrev PyStr := List Char

/-- Python whitespace characters (the class matched by `str.split()`,
`str.strip()` and the regex class `\s` for ASCII text). -/
def isPySpace (c : Char) : Bool :=
  c = ' ' || c = '\t' || c = '\n' || c = '\r' || c = '\x0b' || c = '\x0c'

/-- Python `str.lower()` (ASCII range, which is all the OCR text uses). -/
def pyLower (s : PyStr) : PyStr := s.map Char.toLower

/-- Python `str.strip()`: drop leading and trailing whitespace. -/
def pyStrip (s : PyStr) : PyStr :=
  ((s.dropWhile isPySpace).reverse.dropWhile isPySpace).reverse

/-- Maximal runs of characters satisfying `p`; `cur` is the current run,
reversed.  Used to model both `str.split()` and the vectorizer tokenizer. -/
def splitRunsAux (p : Char → Bool) (cur : List Char) : List Char → List (List Char)
  | [] => if cur.isEmpty then [] else [cur.reverse]
  | c :: cs =>
    if p c then splitRunsAux p (c :: cur) cs
    else if cur.isEmpty then splitRunsAux p [] cs
    else cur.reverse :: splitRunsAux p [] cs

/-- Maximal runs of characters satisfying `p` in `s`. -/
def splitRuns (p : Char → Bool) (s : List Char) : List (List Char) :=
  splitRunsAux p [] s

/-- Python `str.split()` with no argument: whitespace-separated words,
empty pieces discarded. -/
def pySplit (s : PyStr) : List PyStr :=
  splitRuns (fun c => !isPySpace c) s

/-- Python `str.split(sep)` for a one-character separator `sep`. -/
def splitOnCh (sep : Char) : List Char → List (List Char)
  | [] => [[]]
  | c :: cs =>
    if c = sep then [] :: splitOnCh sep cs
    else
      match splitOnCh sep cs with
      | [] => [[c]]
      | g :: gs => (c :: g) :: gs

/-- Python `sep.join(parts)`. -/
def pyJoin (sep : List Char) (parts : List (List Char)) : List Char :=
  List.intercalate sep parts

/-- `leadsWith needle hay` is true when `needle` occurs at the very front of
`hay`. -/
def leadsWith : List Char → List Char → Bool
  | [], _ => true
  | _ :: _, [] => false
  | a :: as, b :: bs => a == b && leadsWith as bs

/-- Python `needle in hay` for strings: contiguous-substring test. -/
def hasSubstr : List Char → List Char → Bool
  | [], needle => leadsWith needle []
  | c :: t, needle => leadsWith needle (c :: t) || hasSubstr t needle

/-- The decimal digit character for `d` (`d` is taken modulo nothing;
callers only pass `d < 10`). -/
def digitChar (d : Nat) : Char :=
  match d with
  | 0 => '0' | 1 => '1' | 2 => '2' | 3 => '3' | 4 => '4'
  | 5 => '5' | 6 => '6' | 7 => '7' | 8 => '8' | _ => '9'

/-- Numeric value of a decimal digit character. -/
def charDigitVal (c : Char) : Nat := c.toNat - 48

/-- Most-significant-first decimal digits of `n` (empty for `0`). -/
def natDigitsAux (n : Nat) : List Char :=
  if h : n = 0 then []
  else natDigitsAux (n / 10) ++ [digitChar (n % 10)]
termination_by n
decreasing_by exact Nat.div_lt_self (Nat.pos_of_ne_zero h) (by norm_num)

/-- Decimal rendering of a natural number, as Python `str(n)` produces it. -/
def renderNat (n : Nat) : List Char :=
  if n = 0 then ['0'] else natDigitsAux n

/-- Left-pad with `'0'` to width `w`, as in Python zero-padded formatting. -/
def padZeros (w : Nat) (ds : List Char) : List Char :=
  List.replicate (w - ds.length) '0' ++ ds

/-- Python `f-string` formatting with format code `02d` generalised to a
width: zero-pads (after the sign for negatives) to the requested width. -/
def padInt (width : Nat) (n : Int) : List Char :=
  if n < 0 then '-' :: padZeros (width - 1) (renderNat (-n).toNat)
  else padZeros width (renderNat n.toNat)

/-- Python `int(q)` on a float value: truncation toward zero. -/
def pyInt (q : ℚ) : Int :=
  if 0 ≤ q then ⌊q⌋ else -⌊-q⌋

/-- `ms_to_timestamp` from `src/utils/time_utils.py`: format a millisecond
offset as `HH:MM:SS` (flooring away the sub-second part). -/
def ms_to_timestamp (milliseconds : ℚ) : PyStr :=
  let seconds := pyInt (milliseconds / 1000)
  let hours := seconds.fdiv 3600
  let minutes := (seconds.fmod 3600).fdiv 60
  let secs := seconds.fmod 60
  padInt 2 hours ++ ':' :: (padInt 2 minutes ++ ':' :: padInt 2 secs)

/-- Numeric value of a digit string, as Python `int(s)` computes it for a
string of decimal digits. -/
def parseDigitsNat (cs : List Char) : Nat :=
  cs.foldl (fun a c => a * 10 + charDigitVal c) 0

/-- Python `int(s)` on an optionally minus-signed digit string. -/
def pyParseInt (cs : List Char) : Int :=
  match cs with
  | '-' :: ds => -(parseDigitsNat ds : Int)
  | _ => (parseDigitsNat cs : Int)

/-- `timestamp_to_ms` from `src/utils/time_utils.py`: parse `HH:MM:SS`
back to milliseconds. -/
def timestamp_to_ms (timestamp : PyStr) : ℚ :=
  let parts := splitOnCh ':' timestamp
  let hours := pyParseInt (parts.getD 0 [])
  let minutes := pyParseInt (parts.getD 1 [])
  let seconds := pyParseInt (parts.getD 2 [])
  ((hours * 3600 + minutes * 60 + seconds) * 1000 : Int)

/-- Characters matched by `\w` in the scikit-learn default token pattern
`(?u)\b\w\w+\b` (ASCII range). -/
def isTokenChar (c : Char) : Bool :=
  c.isAlphanum || c = '_'

/-- The token stream `TfidfVectorizer(lowercase=True)` extracts from a
document: lowercase, maximal `\w` runs, tokens of length at least two. -/
def sklearnTokens (t : PyStr) : List PyStr :=
  (splitRuns isTokenChar (pyLower t)).filter (fun w => 2 ≤ w.length)

/-- Number of occurrences of term `w` in token stream `tks` (raw term
frequency). -/
def termCount (tks : List PyStr) (w : PyStr) : Nat :=
  tks.count w

/-- Insert `w` into a list sorted by strictly-descending-or-equal key,
keeping earlier elements first on ties. -/
def insertByKeyDesc (key : PyStr → Nat) (w : PyStr) : List PyStr → List PyStr
  | [] => [w]
  | x :: xs =>
    if key w ≤ key x then x :: insertByKeyDesc key w xs
    else w :: x :: xs

/-- Stable insertion sort by descending key. -/
def sortByKeyDesc (key : PyStr → Nat) (l : List PyStr) : List PyStr :=
  l.foldr (insertByKeyDesc key) []

/-- The fitted vocabulary of the two-document corpus: distinct tokens,
restricted to the 1000 highest-corpus-frequency terms
(`max_features=1000`). -/
def tfidfVocab (tks1 tks2 : List PyStr) : List PyStr :=
  (sortByKeyDesc (fun w => termCount (tks1 ++ tks2) w)
    ((tks1 ++ tks2).dedup)).take 1000

/-- Number of the two corpus documents containing term `w`. -/
def docFreq (tks1 tks2 : List PyStr) (w : PyStr) : Nat :=
  (if 0 < termCount tks1 w then 1 else 0) + (if 0 < termCount tks2 w then 1 else 0)

/-- Smoothed inverse document frequency used by `TfidfVectorizer` with its
default settings on a two-document corpus: `ln((1+n)/(1+df)) + 1` with
`n = 2`. -/
noncomputable def idfVal (df : Nat) : ℝ :=
  Real.log ((1 + 2) / (1 + (df : ℝ))) + 1

/-- The tf-idf weight of term `w` for the document with token stream
`tks`, inside the corpus `{tks1, tks2}`. -/
noncomputable def tfidfWeight (tks1 tks2 tks : List PyStr) (w : PyStr) : ℝ :=
  (termCount tks w : ℝ) * idfVal (docFreq tks1 tks2 w)

/-- Dot product of two vocabulary-indexed vectors. -/
noncomputable def dotVocab (vocab : List PyStr) (f g : PyStr → ℝ) : ℝ :=
  (vocab.map (fun w => f w * g w)).sum

/-- `TextComparator._word_overlap_similarity`: Jaccard similarity of the
case-folded, whitespace-tokenized word sets. -/
def word_overlap_similarity (text1 text2 : PyStr) : ℚ :=
  let words1 : Finset PyStr := (pySplit (pyLower text1)).toFinset
  let words2 : Finset PyStr := (pySplit (pyLower text2)).toFinset
  if words1 = ∅ ∧ words2 = ∅ then 1
  else if words1 = ∅ ∨ words2 = ∅ then 0
  else
    let inter := (words1 ∩ words2).card
    let union := (words1 ∪ words2).card
    if 0 < union then (inter : ℚ) / (union : ℚ) else 0

/-- `TextComparator._tfidf_similarity`: cosine similarity of the tf-idf
vectors of the two texts; when vectorization degenerates (no tokens at all,
where scikit-learn raises and the code catches), fall back to word-overlap
similarity. -/
noncomputable def tfidf_similarity (text1 text2 : PyStr) : ℝ :=
  let tks1 := sklearnTokens text1
  let tks2 := sklearnTokens text2
  let vocab := tfidfVocab tks1 tks2
  if vocab = [] then (word_overlap_similarity text1 text2 : ℝ)
  else
    let v1 := tfidfWeight tks1 tks2 tks1
    let v2 := tfidfWeight tks1 tks2 tks2
    dotVocab vocab v1 v2 /
      (Real.sqrt (dotVocab vocab v1 v1) * Real.sqrt (dotVocab vocab v2 v2))

/-- `TextComparator._levenshtein_similarity`: normalized edit-distance
similarity of the lowercased, stripped texts, clamped to `[0, 1]`; the
library call `Levenshtein.distance` is the unit-cost edit distance. -/
def levenshtein_similarity (text1 text2 : PyStr) : ℚ :=
  let t1 := pyStrip (pyLower text1)
  let t2 := pyStrip (pyLower text2)
  let distance := levenshtein Levenshtein.defaultCost t1 t2
  let max_len := max t1.length t2.length
  if max_len = 0 then 1
  else max 0 (min 1 (1 - (distance : ℚ) / (max_len : ℚ)))

/-- The three comparison methods accepted by
`TextComparator.calculate_similarity` (an unknown method name raises
`ValueError` in the source and is not modelled). -/
inductive SimMethod where
  | levenshtein
  | tfidf
  | hybrid
deriving DecidableEq

/-- `TextComparator.calculate_similarity`: empty-string guards, then
dispatch on the method; `hybrid` is the arithmetic mean of the
edit-distance and the tf-idf similarities. -/
noncomputable def calculate_similarity (text1 text2 : PyStr) (method : SimMethod) : ℝ :=
  if text1 = [] ∧ text2 = [] then 1
  else if text1 = [] ∨ text2 = [] then 0
  else
    match method with
    | .levenshtein => (levenshtein_similarity text1 text2 : ℝ)
    | .tfidf => tfidf_similarity text1 text2
    | .hybrid =>
      ((levenshtein_similarity text1 text2 : ℝ) + tfidf_similarity text1 text2) / 2

/-- `TextComparator.is_incremental_slide`: `text2` extends `text1` if
`text1` is a literal substring of `text2`, or if at least `threshold` of
`text1`'s words also occur in `text2`. -/
def is_incremental_slide (text1 text2 : PyStr) (threshold : ℚ) : Bool :=
  if hasSubstr text2 text1 then true
  else
    let words1 : Finset PyStr := (pySplit (pyLower text1)).toFinset
    let words2 : Finset PyStr := (pySplit (pyLower text2)).toFinset
    if words1 = ∅ then false
    else decide (threshold ≤ ((words1 ∩ words2).card : ℚ) / (words1.card : ℚ))

/-- `OCREngine.clean_text`: strip every line, drop empty lines, rejoin
with newlines. -/
def clean_text (text : PyStr) : PyStr :=
  pyJoin ['\n'] (((splitOnCh '\n' text).map pyStrip).filter (fun l => l ≠ []))

/-- Characters kept by `OCREngine.normalize_text` (the regex class
`[a-z0-9\s.,!?-]` applied after lowercasing). -/
def isNormKeep (c : Char) : Bool :=
  ('a' ≤ c && c ≤ 'z') || ('0' ≤ c && c ≤ '9') || isPySpace c ||
    c = '.' || c = ',' || c = '!' || c = '?' || c = '-'

/-- `OCREngine.normalize_text`: lowercase, remove special characters,
collapse whitespace runs to single spaces. -/
def normalize_text (text : PyStr) : PyStr :=
  pyJoin [' '] (pySplit ((pyLower text).filter isNormKeep))

/-- Stop tokens filtered by the meaningful-word extractor (content-free
function words). -/
def stopTokens : List PyStr :=
  [ "the".toList, "and".toList, "for".toList, "with".toList, "that".toList,
    "this".toList, "are".toList, "was".toList, "you".toList, "from".toList ]

/-- Modelled from the spec: `TextComparator.extract_meaningful_words` is
called by `SlideDetector._remove_duplicate_slides` but its definition is
not part of the sources; section 4.4 of the specification describes it as
extracting content-bearing tokens, filtering short and stop tokens.  It is
modelled as the set of whitespace-separated lowercased words of length at
least three that are not stop tokens. -/
def extract_meaningful_words (text : PyStr) : Finset PyStr :=
  ((pySplit (pyLower text)).filter
    (fun w => 3 ≤ w.length && !(stopTokens.contains w))).toFinset

/-- Python `round(q, 2)` as used for OCR confidences (modelled as exact
rounding to hundredths). -/
def roundPy2 (q : ℚ) : ℚ :=
  (round (q * 100) : ℤ) / 100

/-- A slide record as built by `SlideDetector._create_slide_entry`; the
raster frame is modelled by an opaque identifier. -/
structure SlideEntry where
  frame : Nat
  start_time_ms : ℚ
  end_time_ms : ℚ
  start_time : PyStr
  end_time : PyStr
  extracted_text : PyStr
  ocr_confidence : ℚ
deriving DecidableEq

/-- `SlideDetector._create_slide_entry`. -/
def create_slide_entry (frame : Nat) (timestamp_ms : ℚ) (text : PyStr)
    (confidence : ℚ) : SlideEntry :=
  { frame := frame
    start_time_ms := timestamp_ms
    end_time_ms := timestamp_ms
    start_time := ms_to_timestamp timestamp_ms
    end_time := ms_to_timestamp timestamp_ms
    extracted_text := text
    ocr_confidence := roundPy2 confidence }

/-- One sampled frame as the detection loop observes it: an opaque frame
identity, its perceptual hash, the raw OCR text and confidence the engine
returns for the preprocessed frame, and the capture timestamp. -/
structure FrameObs where
  frame : Nat
  hash : Nat
  text : PyStr
  confidence : ℚ
  timestamp_ms : ℚ
deriving DecidableEq

/-- The `SlideDetector` configuration fields used by the detection loop. -/
structure DetectorConfig where
  text_similarity_threshold : ℚ
  min_slide_duration : ℚ
  ocr_confidence_threshold : ℚ
  incremental_merge : Bool
  remove_duplicates : Bool
deriving DecidableEq

/-- The carried state of the `detect_slides` loop. -/
structure DetectState where
  slides : List SlideEntry
  current_slide : Option SlideEntry
  previous_text : PyStr
  previous_hash : Option Nat
deriving DecidableEq

/-- The initial state of the `detect_slides` loop. -/
def initState : DetectState :=
  { slides := [], current_slide := none, previous_text := [], previous_hash := none }

/-- The perceptual-hash pre-filter condition: skip OCR when the previous
hash exists and equals the current frame's hash. -/
def hashSkip (st : DetectState) (f : FrameObs) : Bool :=
  match st.previous_hash with
  | some h => f.hash == h
  | none => false

/-- A slide-closure event: the closed slide record together with whether it
passed the minimum-duration gate and was emitted.  This is ghost
instrumentation for stating trace properties; the state component mirrors
the source loop exactly. -/
abbrev CloseEvent := SlideEntry × Bool

/-- One iteration of the `SlideDetector.detect_slides` loop body, with the
list of closure events it produces (empty or a single event). -/
noncomputable def detectStep (cfg : DetectorConfig) (st : DetectState)
    (f : FrameObs) : DetectState × List CloseEvent :=
  if hashSkip st f then
    ({ st with current_slide :=
        st.current_slide.map (fun s => { s with end_time_ms := f.timestamp_ms }) }, [])
  else
    let st1 := { st with previous_hash := some f.hash }
    let current_text := clean_text f.text
    if f.confidence < cfg.ocr_confidence_threshold ∨ current_text = [] then
      ({ st1 with current_slide :=
          st1.current_slide.map (fun s => { s with end_time_ms := f.timestamp_ms }) }, [])
    else if st.previous_text = [] then
      ({ st1 with
          current_slide := some (create_slide_entry f.frame f.timestamp_ms current_text f.confidence)
          previous_text := current_text }, [])
    else
      let similarity := calculate_similarity st.previous_text current_text .hybrid
      let is_incremental :=
        cfg.incremental_merge && is_incremental_slide st.previous_text current_text (7 / 10)
      if similarity < (cfg.text_similarity_threshold : ℝ) ∧ is_incremental = false then
        match st.current_slide with
        | some cs =>
          let closed := { cs with end_time_ms := f.timestamp_ms }
          let duration := (closed.end_time_ms - closed.start_time_ms) / 1000
          ({ slides :=
              if cfg.min_slide_duration ≤ duration then st.slides ++ [closed] else st.slides
             current_slide := some (create_slide_entry f.frame f.timestamp_ms current_text f.confidence)
             previous_text := current_text
             previous_hash := some f.hash },
           [(closed, decide (cfg.min_slide_duration ≤ duration))])
        | none =>
          ({ st1 with
              current_slide := some (create_slide_entry f.frame f.timestamp_ms current_text f.confidence)
              previous_text := current_text }, [])
      else
        match st.current_slide with
        | some cs =>
          let cs1 := { cs with end_time_ms := f.timestamp_ms }
          if is_incremental = true ∧ st.previous_text.length < current_text.length then
            ({ st1 with
                current_slide := some { cs1 with extracted_text := current_text, frame := f.frame }
                previous_text := current_text }, [])
          else
            ({ st1 with current_slide := some cs1 }, [])
        | none => (st1, [])

/-- The end-of-stream closure in `detect_slides`: the still-open slide is
appended exactly when it passes the minimum-duration gate. -/
def closeFinal (cfg : DetectorConfig) (st : DetectState) : List SlideEntry :=
  match st.current_slide with
  | some cs =>
    if cfg.min_slide_duration ≤ (cs.end_time_ms - cs.start_time_ms) / 1000
    then st.slides ++ [cs] else st.slides
  | none => st.slides

/-- The final closure as an event, for trace statements. -/
def closeFinalEvents (cfg : DetectorConfig) (st : DetectState) : List CloseEvent :=
  match st.current_slide with
  | some cs =>
    [(cs, decide (cfg.min_slide_duration ≤ (cs.end_time_ms - cs.start_time_ms) / 1000))]
  | none => []

/-- `SlideDetector.detect_slides` over a finite, timestamp-ordered stream
of frame observations. -/
noncomputable def detect_slides (cfg : DetectorConfig) (frames : List FrameObs) :
    List SlideEntry :=
  closeFinal cfg (frames.foldl (fun st f => (detectStep cfg st f).1) initState)

/-- One loop iteration carrying the closure-event trace alongside the
state. -/
noncomputable def stepWithEvents (cfg : DetectorConfig)
    (p : DetectState × List CloseEvent) (f : FrameObs) :
    DetectState × List CloseEvent :=
  let r := detectStep cfg p.1 f
  (r.1, p.2 ++ r.2)

/-- The full closure-event trace of a detection run (ghost instrumentation
over `detect_slides`). -/
noncomputable def detectEvents (cfg : DetectorConfig) (frames : List FrameObs) :
    List CloseEvent :=
  let p := frames.foldl (stepWithEvents cfg) (initState, [])
  p.2 ++ closeFinalEvents cfg p.1

/-- The loop invariant tying the open slide and the closure-event trace
together: with no slide open (or before the first accepted text) no event
has happened; the open slide starts at the last closure timestamp; and
consecutive closure events abut in time. -/
def DetectInv (p : DetectState × List CloseEvent) : Prop :=
  (p.1.current_slide = none → p.2 = []) ∧
  (p.1.previous_text = [] → p.2 = []) ∧
  (∀ (s : SlideEntry) (e : CloseEvent), p.1.current_slide = some s →
    p.2.getLast? = some e → s.start_time_ms = e.1.end_time_ms) ∧
  List.Chain' (fun a b => a.1.end_time_ms = b.1.start_time_ms) p.2

/-- The duplicate decision of `SlideDetector._remove_duplicate_slides` for
one slide text against the immediately preceding retained slide's text
(both already normalized by `OCREngine.normalize_text`). -/
noncomputable def isDuplicateText (current_text previous_text : PyStr) : Bool :=
  if current_text = previous_text then true
  else
    let current_words := extract_meaningful_words current_text
    let previous_words := extract_meaningful_words previous_text
    if current_words ≠ ∅ ∧ previous_words ≠ ∅ then
      let inter := (current_words ∩ previous_words).card
      let union := (current_words ∪ previous_words).card
      let word_similarity : ℚ := if 0 < union then (inter : ℚ) / (union : ℚ) else 0
      decide ((17 / 20 : ℚ) < word_similarity)
    else
      if (19 / 20 : ℝ) < calculate_similarity current_text previous_text .levenshtein
      then true else false

/-- One iteration of the `_remove_duplicate_slides` walk: compare against
the immediately preceding retained slide only, drop on duplicate. -/
noncomputable def dedupStep (unique_slides : List SlideEntry) (slide : SlideEntry) :
    List SlideEntry :=
  match unique_slides.getLast? with
  | none => unique_slides ++ [slide]
  | some previous =>
    if isDuplicateText (normalize_text slide.extracted_text)
        (normalize_text previous.extracted_text)
    then unique_slides
    else unique_slides ++ [slide]

/-- `SlideDetector._remove_duplicate_slides`: the first slide is always
kept; each later slide is kept exactly when it is not judged a duplicate
of the immediately preceding retained slide. -/
noncomputable def remove_duplicate_slides (slides : List SlideEntry) : List SlideEntry :=
  match slides with
  | [] => []
  | s0 :: rest => rest.foldl dedupStep [s0]

/-- `s` ends with the given ending (Python `str.endswith`). -/
def listEndsWith (s ending : List Char) : Bool :=
  leadsWith ending.reverse s.reverse

/-- The video extensions accepted by `extract_slides`. -/
def supportedVideoEndings : List PyStr :=
  [ ".mp4".toList, ".avi".toList, ".mov".toList, ".mkv".toList ]

/-- The extension check of `extract_slides`:
`video_path.lower().endswith(('.mp4', '.avi', '.mov', '.mkv'))`. -/
def hasSupportedVideoEnding (video_path : PyStr) : Bool :=
  supportedVideoEndings.any (fun e => listEndsWith (pyLower video_path) e)

/-- Python exception values that `extract_slides` can raise or catch
(every constructor models a subclass of `Exception`). -/
inductive PyExc where
  | fileNotFoundError
  | valueErrorBadVideoFormat
  | valueErrorBadSimilarityThreshold
  | valueErrorNegativeDuration
  | runtimeErrorEngineUnavailable
  | otherError (code : Nat)
deriving DecidableEq

/-- The status field of the dictionary `extract_slides` returns. -/
inductive ExtractStatus where
  | success
  | error
deriving DecidableEq

/-- The dictionary `extract_slides` returns (the fields the error path and
the claims use; the success payload beyond the slide count is summarised
by the count). -/
structure ExtractResult where
  status : ExtractStatus
  error : Option PyExc
  slides_count : Nat
  processing_time : ℚ
deriving DecidableEq

/-- `extract_slides` from `src/extractor.py`.  Filesystem and video
processing are modelled by oracles: `file_exists` is the
`os.path.exists` answer for `video_path`, `processing` is the outcome of
everything inside the `try` block (the slide count on success, the raised
exception otherwise — including the `RuntimeError` that `OCREngine`
raises inside `SlideDetector` construction when Tesseract is missing),
and `elapsed` is the wall-clock processing time.  Input validation runs
before the `try` block, so its exceptions propagate to the caller. -/
def extract_slides (video_path : PyStr) (file_exists : Bool)
    (text_similarity_threshold min_slide_duration _ocr_confidence_threshold : ℚ)
    (processing : Except PyExc Nat) (elapsed : ℚ) :
    Except PyExc ExtractResult :=
  if file_exists = false then
    .error .fileNotFoundError
  else if hasSupportedVideoEnding video_path = false then
    .error .valueErrorBadVideoFormat
  else if ¬(0 < text_similarity_threshold ∧ text_similarity_threshold ≤ 1) then
    .error .valueErrorBadSimilarityThreshold
  else if min_slide_duration < 0 then
    .error .valueErrorNegativeDuration
  else
    match processing with
    | .ok slides_count =>
      .ok { status := .success, error := none, slides_count := slides_count,
            processing_time := roundPy2 elapsed }
    | .error e =>
      .ok { status := .error, error := some e, slides_count := 0,
            processing_time := roundPy2 elapsed }

/-- Sample slide used by concrete witnesses: four meaningful words. -/
def sampleSlideA : SlideEntry :=
  { frame := 1, start_time_ms := 0, end_time_ms := 1000, start_time := [],
    end_time := [], extracted_text := "alpha beta gamma delta".toList,
    ocr_confidence := 9 / 10 }

/-- Sample slide used by concrete witnesses: the same four meaningful
words plus a short token, so its normalized text differs from
`sampleSlideA` while the meaningful-word sets coincide. -/
def sampleSlideAx : SlideEntry :=
  { frame := 2, start_time_ms := 1000, end_time_ms := 2000, start_time := [],
    end_time := [], extracted_text := "alpha beta gamma delta x".toList,
    ocr_confidence := 9 / 10 }

/-- Sample slide used by concrete witnesses: meaningful words disjoint
from `sampleSlideA`. -/
def sampleSlideB : SlideEntry :=
  { frame := 3, start_time_ms := 1000, end_time_ms := 2000, start_time := [],
    end_time := [], extracted_text := "one two six".toList,
    ocr_confidence := 9 / 10 }

/-- Sample detector configuration used by concrete witnesses (the source
defaults: similarity threshold `0.75`, minimum duration `3.0`, OCR
confidence threshold `0.70`, both merge flags on). -/
def sampleConfig : DetectorConfig :=
  { text_similarity_threshold := 3 / 4
    min_slide_duration := 3
    ocr_confidence_threshold := 7 / 10
    incremental_merge := true
    remove_duplicates := true }

/-- Sample open slide for step witnesses. -/
def sampleOpenSlide : SlideEntry :=
  { frame := 1, start_time_ms := 0, end_time_ms := 1000, start_time := [],
    end_time := [], extracted_text := "ab".toList, ocr_confidence := 9 / 10 }

/-- Sample accumulating state: one open slide with reference text `"ab"`. -/
def sampleOpenState : DetectState :=
  { slides := [], current_slide := some sampleOpenSlide,
    previous_text := "ab".toList, previous_hash := some 1 }

/-- Sample idle state: no open slide, a stored previous hash. -/
def sampleIdleState : DetectState :=
  { slides := [], current_slide := none, previous_text := [],
    previous_hash := some 5 }

/-- Sample frame whose text extends `"ab"` incrementally with a lower OCR
confidence than the stored one. -/
def sampleIncrFrame : FrameObs :=
  { frame := 2, hash := 2, text := "ab cd".toList, confidence := 7 / 10,
    timestamp_ms := 2000 }

/-- Sample low-confidence (noise) frame with a fresh hash. -/
def sampleNoiseFrame : FrameObs :=
  { frame := 3, hash := 7, text := "xy".toList, confidence := 1 / 10,
    timestamp_ms := 100 }

/-- Sample boundary frame: text `"cd"`, lexically unrelated to `"ab"`,
arriving `2000` ms after the open slide started. -/
def sampleBoundaryFrame : FrameObs :=
  { frame := 4, hash := 9, text := "cd".toList, confidence := 9 / 10,
    timestamp_ms := 2000 }

/-- Sample open slide spanning `3500` ms, for the end-of-stream gate. -/
def sampleLongSlide : SlideEntry :=
  { frame := 5, start_time_ms := 0, end_time_ms := 3500, start_time := [],
    end_time := [], extracted_text := "ab".toList, ocr_confidence := 9 / 10 }

/-- Sample accumulating state holding `sampleLongSlide`. -/
def sampleLongState : DetectState :=
  { slides := [], current_slide := some sampleLongSlide,
    previous_text := "ab".toList, previous_hash := some 1 }

/-- First frame of the sample run: opens the first slide at `0` ms. -/
def sampleRunFrame1 : FrameObs :=
  { frame := 1, hash := 1, text := "ab".toList, confidence := 9 / 10,
    timestamp_ms := 0 }

/-- Second frame of the sample run: a boundary at `4000` ms. -/
def sampleRunFrame2 : FrameObs :=
  { frame := 4, hash := 9, text := "cd".toList, confidence := 9 / 10,
    timestamp_ms := 4000 }

/-- Third frame of the sample run: same text again at `8000` ms. -/
def sampleRunFrame3 : FrameObs :=
  { frame := 6, hash := 10, text := "cd".toList, confidence := 9 / 10,
    timestamp_ms := 8000 }

/-- The three-frame sample run. -/
def sampleRun : List FrameObs := [sampleRunFrame1, sampleRunFrame2, sampleRunFrame3]

/-- The first slide of the sample run, as created at `0` ms. -/
def sampleRunSlide1 : SlideEntry := create_slide_entry 1 0 ("ab".toList) (9 / 10)

/-- The second slide of the sample run, as created at `4000` ms. -/
def sampleRunSlide2 : SlideEntry := create_slide_entry 4 4000 ("cd".toList) (9 / 10)

/-- The first sample-run slide as closed at the `4000` ms boundary. -/
def sampleRunClosed1 : SlideEntry := { sampleRunSlide1 with end_time_ms := 4000 }

/-- The second sample-run slide as closed at stream end (`8000` ms). -/
def sampleRunClosed2 : SlideEntry := { sampleRunSlide2 with end_time_ms := 8000 }

/-- Sample-run state after the first frame. -/
def sampleRunState1 : DetectState :=
  { slides := [], current_slide := some sampleRunSlide1,
    previous_text := "ab".toList, previous_hash := some 1 }

/-- Sample-run state after the boundary frame. -/
def sampleRunState2 : DetectState :=
  { slides := [sampleRunClosed1], current_slide := some sampleRunSlide2,
    previous_text := "cd".toList, previous_hash := some 9 }

/-- Sample-run state after the final frame. -/
def sampleRunState3 : DetectState :=
  { slides := [sampleRunClosed1], current_slide := some sampleRunClosed2,
    previous_text := "cd".toList, previous_hash := some 10 }

/-! ## Theorems -/

/-- C9: every exception raised inside the processing phase (including the
engine-unavailable `RuntimeError` from `OCREngine` construction) is caught
and turned into a returned dictionary with status `error`, the error
value, `slides_count = 0` and a processing time; an `extract_slides` call
raises only when one of the pre-processing validation checks (missing
file, unsupported extension, bad similarity threshold, negative duration)
fails. -/
theorem extract_slides_error_containment (video_path : PyStr) (file_exists : Bool)
    (tthr mdur othr elapsed : ℚ) (proc : Except PyExc Nat) :
    (∀ e : PyExc, proc = Except.error e → file_exists = true →
      hasSupportedVideoEnding video_path = true → 0 < tthr → tthr ≤ 1 → 0 ≤ mdur →
      extract_slides video_path file_exists tthr mdur othr proc elapsed =
        Except.ok { status := .error, error := some e, slides_count := 0,
                    processing_time := roundPy2 elapsed }) ∧
    (∀ err : PyExc,
      extract_slides video_path file_exists tthr mdur othr proc elapsed =
        Except.error err →
      file_exists = false ∨ hasSupportedVideoEnding video_path = false ∨
        ¬(0 < tthr ∧ tthr ≤ 1) ∨ mdur < 0) := by
  constructor
  · intro e hproc hex hend h0 h1 hd
    subst hproc hex
    unfold extract_slides
    rw [if_neg (by simp), if_neg (by simp [hend]),
      if_neg (not_not_intro ⟨h0, h1⟩), if_neg (not_lt.mpr hd)]
  · intro err herr
    by_contra hcon
    push_neg at hcon
    obtain ⟨hex, hend, hthr, hdur⟩ := hcon
    unfold extract_slides at herr
    rw [if_neg (by simp [hex]), if_neg (by simp [hend]),
      if_neg (not_not_intro hthr), if_neg (not_lt.mpr hdur)] at herr
    cases proc <;> simp at herr

/-- Witness for C9: a run whose processing phase raises the
engine-unavailable error returns the error dictionary instead of
propagating the exception. -/
theorem extract_slides_error_containment_witness :
    extract_slides "lecture.mp4".toList true (3 / 4) 3 (7 / 10)
        (Except.error PyExc.runtimeErrorEngineUnavailable) 5 =
      Except.ok { status := .error, error := some PyExc.runtimeErrorEngineUnavailable,
                  slides_count := 0, processing_time := roundPy2 5 } :=
  (extract_slides_error_containment "lecture.mp4".toList true (3 / 4) 3 (7 / 10) 5
      (Except.error PyExc.runtimeErrorEngineUnavailable)).1
    PyExc.runtimeErrorEngineUnavailable rfl rfl (by decide) (by norm_num) (by norm_num)
    (by norm_num)

/-- Counterexample for C4: with every other parameter valid, an OCR
confidence threshold of `3/2` — outside `[0, 1]` — does not raise; the
call proceeds into processing and returns a success dictionary, so the
OCR confidence threshold is not validated. -/
theorem extract_slides_no_ocr_threshold_validation :
    extract_slides "lecture.mp4".toList true (3 / 4) 3 (3 / 2) (Except.ok 7) 5 =
      Except.ok { status := .success, error := none, slides_count := 7,
                  processing_time := roundPy2 5 } ∧ ¬((3 / 2 : ℚ) ≤ 1) := by
  constructor
  · unfold extract_slides
    rw [if_neg (by simp), if_neg (by decide), if_neg (by norm_num), if_neg (by norm_num)]
  · norm_num

/-- C4 as amended: before any processing happens, `extract_slides`
validates the text similarity threshold (raising unless it lies in
`(0, 1]`, which in particular covers every value outside `[0, 1]`) and
the slide duration (raising when negative); the OCR confidence threshold
is not validated.  The conclusions do not depend on the processing
oracle, so the errors are raised before processing starts. -/
theorem extract_slides_validation (video_path : PyStr)
    (tthr mdur othr elapsed : ℚ) (proc : Except PyExc Nat) :
    (hasSupportedVideoEnding video_path = true →
      ¬(0 < tthr ∧ tthr ≤ 1) →
      extract_slides video_path true tthr mdur othr proc elapsed =
        Except.error PyExc.valueErrorBadSimilarityThreshold) ∧
    (hasSupportedVideoEnding video_path = true → 0 < tthr → tthr ≤ 1 → mdur < 0 →
      extract_slides video_path true tthr mdur othr proc elapsed =
        Except.error PyExc.valueErrorNegativeDuration) := by
  constructor
  · intro hend hthr
    unfold extract_slides
    rw [if_neg (by simp), if_neg (by simp [hend]), if_pos hthr]
  · intro hend h0 h1 hdur
    unfold extract_slides
    rw [if_neg (by simp), if_neg (by simp [hend]), if_neg (not_not_intro ⟨h0, h1⟩),
      if_pos hdur]

/-- Witness for the amended C4: a similarity threshold of `2` raises the
threshold error and a duration of `-1` raises the duration error, in both
cases whatever the processing oracle would have produced. -/
theorem extract_slides_validation_witness :
    extract_slides "lecture.mp4".toList true 2 3 (7 / 10) (Except.ok 7) 5 =
      Except.error PyExc.valueErrorBadSimilarityThreshold ∧
    extract_slides "lecture.mp4".toList true (3 / 4) (-1) (7 / 10) (Except.ok 7) 5 =
      Except.error PyExc.valueErrorNegativeDuration :=
  ⟨(extract_slides_validation "lecture.mp4".toList 2 3 (7 / 10) 5 (Except.ok 7)).1
      (by decide) (by norm_num),
   (extract_slides_validation "lecture.mp4".toList (3 / 4) (-1) (7 / 10) 5 (Except.ok 7)).2
      (by decide) (by norm_num) (by norm_num) (by norm_num)⟩

/-- Every digit character decodes back to its value. -/
theorem charDigitVal_digitChar (d : Nat) (hd : d < 10) :
    charDigitVal (digitChar d) = d := by
  interval_cases d <;> decide

/-- Digit characters are never the minus sign. -/
theorem digitChar_ne_minus (d : Nat) : digitChar d ≠ '-' := by
  unfold digitChar; split <;> decide

/-- Digit characters are never the colon separator. -/
theorem digitChar_ne_colon (d : Nat) : digitChar d ≠ ':' := by
  unfold digitChar; split <;> decide

/-- Characters of `natDigitsAux` are digit characters. -/
theorem mem_natDigitsAux (n : Nat) (c : Char) (hc : c ∈ natDigitsAux n) :
    ∃ d, c = digitChar d := by
  induction n using Nat.strong_induction_on with
  | _ n ih =>
    by_cases h : n = 0
    · subst h; rw [natDigitsAux] at hc; simp at hc
    · rw [natDigitsAux, dif_neg h, List.mem_append] at hc
      rcases hc with hc | hc
      · exact ih (n / 10) (Nat.div_lt_self (Nat.pos_of_ne_zero h) (by norm_num)) hc
      · exact ⟨n % 10, by simpa using hc⟩

/-- Characters of `renderNat` are digit characters. -/
theorem mem_renderNat (n : Nat) (c : Char) (hc : c ∈ renderNat n) :
    ∃ d, c = digitChar d := by
  rw [renderNat] at hc
  by_cases h : n = 0
  · rw [if_pos h] at hc; exact ⟨0, by simpa using hc⟩
  · rw [if_neg h] at hc; exact mem_natDigitsAux n c hc

/-- Characters of a zero-padded digit string are digit characters. -/
theorem mem_padZeros_renderNat (w n : Nat) (c : Char)
    (hc : c ∈ padZeros w (renderNat n)) : ∃ d, c = digitChar d := by
  rw [padZeros, List.mem_append] at hc
  rcases hc with hc | hc
  · exact ⟨0, by simpa using List.eq_of_mem_replicate hc⟩
  · exact mem_renderNat n c hc

/-- Parsing ignores leading zero padding. -/
theorem foldl_parse_zeros (k : Nat) :
    List.foldl (fun a c => a * 10 + charDigitVal c) 0 (List.replicate k '0') = 0 := by
  induction k with
  | zero => rfl
  | succ k ih => simpa [List.replicate_succ] using ih

/-- `parseDigitsNat` inverts `natDigitsAux`. -/
theorem parseDigitsNat_natDigitsAux (n : Nat) :
    parseDigitsNat (natDigitsAux n) = n := by
  induction n using Nat.strong_induction_on with
  | _ n ih =>
    by_cases h : n = 0
    · subst h; rw [natDigitsAux]; rfl
    · rw [natDigitsAux, dif_neg h]
      rw [parseDigitsNat, List.foldl_append]
      simp only [List.foldl_cons, List.foldl_nil]
      rw [← parseDigitsNat,
        ih (n / 10) (Nat.div_lt_self (Nat.pos_of_ne_zero h) (by norm_num)),
        charDigitVal_digitChar _ (Nat.mod_lt n (by norm_num))]
      omega

/-- `parseDigitsNat` inverts `renderNat`. -/
theorem parseDigitsNat_renderNat (n : Nat) :
    parseDigitsNat (renderNat n) = n := by
  rw [renderNat]
  by_cases h : n = 0
  · rw [if_pos h, h]; rfl
  · rw [if_neg h]; exact parseDigitsNat_natDigitsAux n

/-- `parseDigitsNat` ignores the zero padding. -/
theorem parseDigitsNat_padZeros (w : Nat) (ds : List Char) :
    parseDigitsNat (padZeros w ds) = parseDigitsNat ds := by
  rw [padZeros, parseDigitsNat, parseDigitsNat, List.foldl_append, foldl_parse_zeros]

/-- `pyParseInt` on a pure digit string is plain digit parsing. -/
theorem pyParseInt_digits (cs : List Char) (h : ∀ c ∈ cs, ∃ d, c = digitChar d) :
    pyParseInt cs = (parseDigitsNat cs : ℤ) := by
  cases cs with
  | nil => rfl
  | cons c ds =>
    unfold pyParseInt
    split
    · rename_i heq
      obtain ⟨d, hd⟩ := h '-' (by rw [List.cons_eq_cons] at heq; simp [heq.1])
      exact absurd hd.symm (digitChar_ne_minus d)
    · rfl

/-- `splitOnCh` never returns the empty list of parts. -/
theorem splitOnCh_ne_nil (sep : Char) (l : List Char) : splitOnCh sep l ≠ [] := by
  induction l with
  | nil => simp [splitOnCh]
  | cons c cs ih =>
    rw [splitOnCh]
    by_cases h : c = sep
    · simp [h]
    · rw [if_neg h]
      cases hs : splitOnCh sep cs with
      | nil => exact absurd hs ih
      | cons g gs => simp

/-- Splitting a separator-free string yields that single part. -/
theorem splitOnCh_of_not_mem (sep : Char) (l : List Char) (h : sep ∉ l) :
    splitOnCh sep l = [l] := by
  induction l with
  | nil => rfl
  | cons c cs ih =>
    have hc : c ≠ sep := fun hc => h (hc ▸ List.mem_cons_self c cs)
    have hcs : sep ∉ cs := fun hm => h (List.mem_cons_of_mem c hm)
    rw [splitOnCh, if_neg hc, ih hcs]

/-- Splitting after a separator-free first chunk peels off that chunk. -/
theorem splitOnCh_append (sep : Char) (a b : List Char) (h : sep ∉ a) :
    splitOnCh sep (a ++ sep :: b) = a :: splitOnCh sep b := by
  induction a with
  | nil => simp [splitOnCh]
  | cons c cs ih =>
    have hc : c ≠ sep := fun hc => h (hc ▸ List.mem_cons_self c cs)
    have hcs : sep ∉ cs := fun hm => h (List.mem_cons_of_mem c hm)
    rw [List.cons_append, splitOnCh, if_neg hc, ih hcs]

/-- `Int.fdiv` on natural-number casts is natural division. -/
theorem fdiv_natCast (m n : Nat) : (m : ℤ).fdiv (n : ℤ) = ((m / n : Nat) : ℤ) := by
  rw [Int.fdiv_eq_ediv _ (Int.natCast_nonneg n)]
  exact_mod_cast rfl

/-- `Int.fmod` on natural-number casts is the natural remainder. -/
theorem fmod_natCast (m n : Nat) : (m : ℤ).fmod (n : ℤ) = ((m % n : Nat) : ℤ) := by
  rw [Int.fmod_eq_emod _ (Int.natCast_nonneg n)]
  exact_mod_cast rfl

/-- `padInt` on natural-number casts never prints a sign. -/
theorem padInt_natCast (w : Nat) (k : Nat) :
    padInt w (k : ℤ) = padZeros w (renderNat k) := by
  rw [padInt, if_neg (by exact not_lt.mpr (Int.natCast_nonneg k)), Int.toNat_natCast]

/-- The rendered timestamp of a nonnegative millisecond offset, in terms
of the floored whole-second count. -/
theorem ms_to_timestamp_eq (ms : ℚ) (hms : 0 ≤ ms) :
    ms_to_timestamp ms =
      padZeros 2 (renderNat (⌊ms / 1000⌋.toNat / 3600)) ++ ':' ::
        (padZeros 2 (renderNat (⌊ms / 1000⌋.toNat % 3600 / 60)) ++ ':' ::
          padZeros 2 (renderNat (⌊ms / 1000⌋.toNat % 60))) := by
  have hq : (0 : ℚ) ≤ ms / 1000 := by positivity
  have hfl : (0 : ℤ) ≤ ⌊ms / 1000⌋ := Int.floor_nonneg.mpr hq
  simp only [ms_to_timestamp, pyInt, if_pos hq]
  rw [← Int.toNat_of_nonneg hfl]
  rw [show ((3600 : ℤ)) = ((3600 : Nat) : ℤ) from rfl,
    show ((60 : ℤ)) = ((60 : Nat) : ℤ) from rfl,
    fdiv_natCast, fmod_natCast, fdiv_natCast, fmod_natCast,
    padInt_natCast, padInt_natCast, padInt_natCast]
  simp only [Int.toNat_natCast]

/-- Parsing the rendered `HH:MM:SS` string recovers the whole-second
count times one thousand. -/
theorem timestamp_to_ms_render (k : Nat) :
    timestamp_to_ms (padZeros 2 (renderNat (k / 3600)) ++ ':' ::
      (padZeros 2 (renderNat (k % 3600 / 60)) ++ ':' ::
        padZeros 2 (renderNat (k % 60)))) = (k : ℚ) * 1000 := by
  have hA : ':' ∉ padZeros 2 (renderNat (k / 3600)) := fun hmem => by
    obtain ⟨d, hd⟩ := mem_padZeros_renderNat _ _ _ hmem
    exact digitChar_ne_colon d hd.symm
  have hB : ':' ∉ padZeros 2 (renderNat (k % 3600 / 60)) := fun hmem => by
    obtain ⟨d, hd⟩ := mem_padZeros_renderNat _ _ _ hmem
    exact digitChar_ne_colon d hd.symm
  have hC : ':' ∉ padZeros 2 (renderNat (k % 60)) := fun hmem => by
    obtain ⟨d, hd⟩ := mem_padZeros_renderNat _ _ _ hmem
    exact digitChar_ne_colon d hd.symm
  simp only [timestamp_to_ms]
  rw [splitOnCh_append ':' _ _ hA, splitOnCh_append ':' _ _ hB,
    splitOnCh_of_not_mem ':' _ hC]
  simp only [List.getD_cons_zero, List.getD_cons_succ]
  rw [pyParseInt_digits _ (mem_padZeros_renderNat _ _),
    pyParseInt_digits _ (mem_padZeros_renderNat _ _),
    pyParseInt_digits _ (mem_padZeros_renderNat _ _),
    parseDigitsNat_padZeros, parseDigitsNat_padZeros, parseDigitsNat_padZeros,
    parseDigitsNat_renderNat, parseDigitsNat_renderNat, parseDigitsNat_renderNat]
  have hsum : k / 3600 * 3600 + k % 3600 / 60 * 60 + k % 60 = k := by omega
  conv_rhs => rw [← hsum]
  push_cast
  norm_cast

/-- C5: for every nonnegative whole-second millisecond value the
timestamp round trip is the identity, and in general the round trip
floors to the whole second below (`1500` maps to `00:00:01` and back to
`1000`). -/
theorem timestamp_round_trip (ms : ℚ) (hms : 0 ≤ ms) :
    timestamp_to_ms (ms_to_timestamp ms) = 1000 * (⌊ms / 1000⌋ : ℚ) ∧
    (∀ n : ℤ, ms = 1000 * (n : ℚ) → timestamp_to_ms (ms_to_timestamp ms) = ms) := by
  have hq : (0 : ℚ) ≤ ms / 1000 := by positivity
  have hfl : (0 : ℤ) ≤ ⌊ms / 1000⌋ := Int.floor_nonneg.mpr hq
  have hmain : timestamp_to_ms (ms_to_timestamp ms) = 1000 * (⌊ms / 1000⌋ : ℚ) := by
    rw [ms_to_timestamp_eq ms hms, timestamp_to_ms_render]
    have hcast : ((⌊ms / 1000⌋.toNat : ℕ) : ℚ) = ((⌊ms / 1000⌋ : ℤ) : ℚ) := by
      exact_mod_cast congrArg (fun z : ℤ => (z : ℚ)) (Int.toNat_of_nonneg hfl)
    rw [hcast]
    ring
  refine ⟨hmain, fun n hn => ?_⟩
  rw [hmain, hn]
  have : (1000 : ℚ) * (n : ℚ) / 1000 = (n : ℚ) := by ring
  rw [this, Int.floor_intCast]

/-- Witness for C5: `1500` ms renders to `00:00:01` and parses back to
`1000` ms; the whole-second value `3000` ms round-trips to itself. -/
theorem timestamp_round_trip_witness :
    timestamp_to_ms (ms_to_timestamp 1500) = 1000 ∧
    timestamp_to_ms (ms_to_timestamp 3000) = 3000 := by
  constructor
  · rw [(timestamp_round_trip 1500 (by norm_num)).1]
    norm_num [Int.floor_eq_iff]
  · exact (timestamp_round_trip 3000 (by norm_num)).2 3 (by norm_num)

/-- The unit-cost edit distance from a list to itself is zero. -/
theorem levenshtein_self (l : List Char) :
    levenshtein Levenshtein.defaultCost l l = 0 := by
  induction l with
  | nil => exact levenshtein_nil_nil
  | cons x xs ih =>
    rw [levenshtein_cons_cons]
    simp [ih]

/-- Edit-distance similarity of a text with itself is `1`. -/
theorem levenshtein_similarity_self (t : PyStr) : levenshtein_similarity t t = 1 := by
  simp only [levenshtein_similarity, levenshtein_self]
  by_cases h : (pyStrip (pyLower t)).length = 0
  · rw [if_pos (by simpa using h)]
  · rw [if_neg (by simpa using h)]
    norm_num

/-- Word-overlap similarity of a text with itself is `1`. -/
theorem word_overlap_similarity_self (t : PyStr) : word_overlap_similarity t t = 1 := by
  rw [word_overlap_similarity]
  by_cases h : (pySplit (pyLower t)).toFinset = (∅ : Finset PyStr)
  · rw [if_pos ⟨h, h⟩]
  · rw [if_neg (by simp [h]), if_neg (by simp [h]), Finset.inter_self, Finset.union_self]
    have hcard : 0 < ((pySplit (pyLower t)).toFinset).card :=
      Finset.card_pos.mpr (Finset.nonempty_iff_ne_empty.mpr h)
    rw [if_pos hcard, div_self (by exact_mod_cast hcard.ne')]

/-- Membership is preserved by the descending insertion. -/
theorem mem_insertByKeyDesc (key : PyStr → Nat) (w x : PyStr) (l : List PyStr) :
    x ∈ insertByKeyDesc key w l ↔ x = w ∨ x ∈ l := by
  induction l with
  | nil => simp [insertByKeyDesc]
  | cons y ys ih =>
    rw [insertByKeyDesc]
    by_cases h : key w ≤ key y
    · rw [if_pos h]
      simp only [List.mem_cons, ih]
      tauto
    · rw [if_neg h]
      simp only [List.mem_cons]

/-- Membership is preserved by the descending sort. -/
theorem mem_sortByKeyDesc (key : PyStr → Nat) (x : PyStr) (l : List PyStr) :
    x ∈ sortByKeyDesc key l ↔ x ∈ l := by
  induction l with
  | nil => simp [sortByKeyDesc]
  | cons y ys ih =>
    rw [sortByKeyDesc, List.foldr_cons, mem_insertByKeyDesc, ← sortByKeyDesc, ih]
    simp

/-- The descending insertion never shrinks a list to empty. -/
theorem insertByKeyDesc_ne_nil (key : PyStr → Nat) (w : PyStr) (l : List PyStr) :
    insertByKeyDesc key w l ≠ [] := by
  cases l with
  | nil => simp [insertByKeyDesc]
  | cons y ys =>
    rw [insertByKeyDesc]
    by_cases h : key w ≤ key y
    · rw [if_pos h]; simp
    · rw [if_neg h]; simp

/-- Every vocabulary term occurs in one of the two token streams. -/
theorem mem_of_mem_tfidfVocab (tks1 tks2 : List PyStr) (w : PyStr)
    (hw : w ∈ tfidfVocab tks1 tks2) : w ∈ tks1 ∨ w ∈ tks2 := by
  rw [tfidfVocab] at hw
  have hw2 := List.take_subset 1000 _ hw
  rw [mem_sortByKeyDesc] at hw2
  rw [List.mem_dedup, List.mem_append] at hw2
  exact hw2

/-- A nonempty token stream yields a nonempty vocabulary. -/
theorem tfidfVocab_ne_nil (tks1 tks2 : List PyStr) (h : tks1 ≠ [] ∨ tks2 ≠ []) :
    tfidfVocab tks1 tks2 ≠ [] := by
  rw [tfidfVocab]
  have happ : tks1 ++ tks2 ≠ [] := by
    cases h with
    | inl h => exact fun hc => h (List.append_eq_nil.mp hc).1
    | inr h => exact fun hc => h (List.append_eq_nil.mp hc).2
  have hd : (tks1 ++ tks2).dedup ≠ [] := by
    intro hc
    rcases List.exists_mem_of_ne_nil _ happ with ⟨x, hx⟩
    have : x ∈ (tks1 ++ tks2).dedup := List.mem_dedup.mpr hx
    rw [hc] at this
    simp at this
  obtain ⟨y, ys, hys⟩ := List.exists_cons_of_ne_nil hd
  rw [hys, sortByKeyDesc, List.foldr_cons]
  intro hc
  have := insertByKeyDesc_ne_nil (fun w => termCount (tks1 ++ tks2) w) y
    (List.foldr (insertByKeyDesc fun w => termCount (tks1 ++ tks2) w) [] ys)
  rw [List.take_eq_nil_iff] at hc
  rcases hc with hc | hc
  · exact absurd hc (by norm_num)
  · exact this hc

/-- The smoothed idf of a term occurring in both documents is exactly `1`. -/
theorem idfVal_two : idfVal 2 = 1 := by
  rw [idfVal]
  norm_num

/-- Cosine tf-idf similarity of a text with itself is `1`. -/
theorem tfidf_similarity_self (t : PyStr) : tfidf_similarity t t = 1 := by
  simp only [tfidf_similarity]
  by_cases hv : tfidfVocab (sklearnTokens t) (sklearnTokens t) = []
  · rw [if_pos hv, word_overlap_similarity_self]
    norm_num
  · rw [if_neg hv]
    obtain ⟨w, hw⟩ := List.exists_mem_of_ne_nil _ hv
    have hwtks : w ∈ sklearnTokens t := by
      rcases mem_of_mem_tfidfVocab _ _ w hw with h | h <;> exact h
    have hc : 0 < termCount (sklearnTokens t) w := by
      rw [termCount]
      exact List.count_pos_iff.mpr hwtks
    have hdf : docFreq (sklearnTokens t) (sklearnTokens t) w = 2 := by
      rw [docFreq, if_pos hc]
    have hvw : (1 : ℝ) ≤ tfidfWeight (sklearnTokens t) (sklearnTokens t) (sklearnTokens t) w := by
      rw [tfidfWeight, hdf, idfVal_two, mul_one]
      exact_mod_cast hc
    have hpos : 0 < dotVocab (tfidfVocab (sklearnTokens t) (sklearnTokens t))
        (tfidfWeight (sklearnTokens t) (sklearnTokens t) (sklearnTokens t))
        (tfidfWeight (sklearnTokens t) (sklearnTokens t) (sklearnTokens t)) := by
      rw [dotVocab]
      have hterm :
          tfidfWeight (sklearnTokens t) (sklearnTokens t) (sklearnTokens t) w *
            tfidfWeight (sklearnTokens t) (sklearnTokens t) (sklearnTokens t) w ∈
          (tfidfVocab (sklearnTokens t) (sklearnTokens t)).map
            (fun u => tfidfWeight (sklearnTokens t) (sklearnTokens t) (sklearnTokens t) u *
              tfidfWeight (sklearnTokens t) (sklearnTokens t) (sklearnTokens t) u) :=
        List.mem_map_of_mem _ hw
      have hnonneg : ∀ x ∈ (tfidfVocab (sklearnTokens t) (sklearnTokens t)).map
          (fun u => tfidfWeight (sklearnTokens t) (sklearnTokens t) (sklearnTokens t) u *
            tfidfWeight (sklearnTokens t) (sklearnTokens t) (sklearnTokens t) u), 0 ≤ x := by
        intro x hx
        obtain ⟨u, _, rfl⟩ := List.mem_map.mp hx
        exact mul_self_nonneg _
      have hw2 : (0 : ℝ) <
          tfidfWeight (sklearnTokens t) (sklearnTokens t) (sklearnTokens t) w *
            tfidfWeight (sklearnTokens t) (sklearnTokens t) (sklearnTokens t) w := by
        nlinarith
      exact lt_of_lt_of_le hw2 (List.single_le_sum hnonneg _ hterm)
    rw [Real.mul_self_sqrt hpos.le, div_self hpos.ne']

/-- C6: for every non-empty text `t` and each of the three comparison
methods, `calculate_similarity t t method = 1`. -/
theorem calculate_similarity_reflexive (t : PyStr) (ht : t ≠ []) (m : SimMethod) :
    calculate_similarity t t m = 1 := by
  unfold calculate_similarity
  rw [if_neg (by simp [ht]), if_neg (by simp [ht])]
  cases m with
  | levenshtein =>
    rw [levenshtein_similarity_self]
    norm_num
  | tfidf => exact tfidf_similarity_self t
  | hybrid =>
    rw [levenshtein_similarity_self, tfidf_similarity_self]
    norm_num

/-- Witness for C6: reflexivity at the concrete text `"ab"` for all three
methods. -/
theorem calculate_similarity_reflexive_witness :
    calculate_similarity ['a', 'b'] ['a', 'b'] SimMethod.levenshtein = 1 ∧
    calculate_similarity ['a', 'b'] ['a', 'b'] SimMethod.tfidf = 1 ∧
    calculate_similarity ['a', 'b'] ['a', 'b'] SimMethod.hybrid = 1 :=
  ⟨calculate_similarity_reflexive ['a', 'b'] (by decide) SimMethod.levenshtein,
   calculate_similarity_reflexive ['a', 'b'] (by decide) SimMethod.tfidf,
   calculate_similarity_reflexive ['a', 'b'] (by decide) SimMethod.hybrid⟩

/-- A slide text is always a duplicate of itself (exact-match branch). -/
theorem isDuplicateText_self (x : PyStr) : isDuplicateText x x = true := by
  unfold isDuplicateText
  rw [if_pos rfl]

/-- On differing normalized texts with non-empty meaningful-word sets the
duplicate decision is exactly the `0.85` Jaccard-overlap test. -/
theorem isDuplicateText_jaccard (ct pt : PyStr) (hne : ct ≠ pt)
    (hs : extract_meaningful_words ct ≠ ∅)
    (hp : extract_meaningful_words pt ≠ ∅) :
    isDuplicateText ct pt =
      decide ((17 / 20 : ℚ) <
        ((extract_meaningful_words ct ∩ extract_meaningful_words pt).card : ℚ) /
        ((extract_meaningful_words ct ∪ extract_meaningful_words pt).card : ℚ)) := by
  have hu : 0 < (extract_meaningful_words ct ∪ extract_meaningful_words pt).card := by
    rw [Finset.card_pos]
    exact Finset.Nonempty.inl (Finset.nonempty_iff_ne_empty.mpr hs)
  unfold isDuplicateText
  rw [if_neg hne, if_pos ⟨hs, hp⟩]
  show decide ((17 / 20 : ℚ) <
      (if 0 < (extract_meaningful_words ct ∪ extract_meaningful_words pt).card then
        ((extract_meaningful_words ct ∩ extract_meaningful_words pt).card : ℚ) /
        ((extract_meaningful_words ct ∪ extract_meaningful_words pt).card : ℚ) else 0)) = _
  rw [if_pos hu]

/-- C1: the duplicate suppressor walks the finalized list comparing each
slide only against the immediately preceding retained slide, and when the
normalized texts differ but both meaningful-word sets are non-empty, the
later slide is dropped exactly when the Jaccard overlap of the two sets
exceeds `0.85`. -/
theorem duplicate_suppressor_jaccard_rule :
    (∀ (s0 : SlideEntry) (rest : List SlideEntry),
      remove_duplicate_slides (s0 :: rest) = rest.foldl dedupStep [s0]) ∧
    (∀ (acc : List SlideEntry) (p s : SlideEntry),
      acc.getLast? = some p →
      normalize_text s.extracted_text ≠ normalize_text p.extracted_text →
      extract_meaningful_words (normalize_text s.extracted_text) ≠ ∅ →
      extract_meaningful_words (normalize_text p.extracted_text) ≠ ∅ →
      dedupStep acc s =
        if (17 / 20 : ℚ) <
            ((extract_meaningful_words (normalize_text s.extracted_text) ∩
              extract_meaningful_words (normalize_text p.extracted_text)).card : ℚ) /
            ((extract_meaningful_words (normalize_text s.extracted_text) ∪
              extract_meaningful_words (normalize_text p.extracted_text)).card : ℚ)
        then acc else acc ++ [s]) := by
  constructor
  · intro s0 rest
    rfl
  · intro acc p s hlast hne hs hp
    rw [dedupStep, hlast]
    show (if isDuplicateText (normalize_text s.extracted_text)
        (normalize_text p.extracted_text) = true then acc else acc ++ [s]) = _
    rw [isDuplicateText_jaccard _ _ hne hs hp]
    by_cases hj : (17 / 20 : ℚ) <
        ((extract_meaningful_words (normalize_text s.extracted_text) ∩
          extract_meaningful_words (normalize_text p.extracted_text)).card : ℚ) /
        ((extract_meaningful_words (normalize_text s.extracted_text) ∪
          extract_meaningful_words (normalize_text p.extracted_text)).card : ℚ)
    · rw [if_pos (by simpa using hj), if_pos hj]
    · rw [if_neg (by simpa using hj), if_neg hj]

/-- Witness for C1: with four shared meaningful words and one extra short
token the Jaccard overlap is `1 > 0.85` and the slide is dropped; with
disjoint meaningful words the overlap is `0 ≤ 0.85` and the slide is
retained. -/
theorem duplicate_suppressor_jaccard_rule_witness :
    dedupStep [sampleSlideA] sampleSlideAx = [sampleSlideA] ∧
    dedupStep [sampleSlideA] sampleSlideB = [sampleSlideA, sampleSlideB] := by
  have h := duplicate_suppressor_jaccard_rule.2
  constructor
  · have e := h [sampleSlideA] sampleSlideA sampleSlideAx rfl
      (by decide) (by decide) (by decide)
    have hcap : (extract_meaningful_words (normalize_text sampleSlideAx.extracted_text) ∩
        extract_meaningful_words (normalize_text sampleSlideA.extracted_text)).card = 4 := by
      decide
    have hcup : (extract_meaningful_words (normalize_text sampleSlideAx.extracted_text) ∪
        extract_meaningful_words (normalize_text sampleSlideA.extracted_text)).card = 4 := by
      decide
    rw [e, if_pos (by rw [hcap, hcup]; norm_num)]
  · have e := h [sampleSlideA] sampleSlideA sampleSlideB rfl
      (by decide) (by decide) (by decide)
    have hcap : (extract_meaningful_words (normalize_text sampleSlideB.extracted_text) ∩
        extract_meaningful_words (normalize_text sampleSlideA.extracted_text)).card = 0 := by
      decide
    have hcup : (extract_meaningful_words (normalize_text sampleSlideB.extracted_text) ∪
        extract_meaningful_words (normalize_text sampleSlideA.extracted_text)).card = 7 := by
      decide
    rw [e, if_neg (by rw [hcap, hcup]; norm_num)]
    rfl

/-- The dedup walk step, written against the last retained slide. -/
theorem dedupStep_eq (acc : List SlideEntry) (p s : SlideEntry)
    (hlast : acc.getLast? = some p) :
    dedupStep acc s =
      if isDuplicateText (normalize_text s.extracted_text)
          (normalize_text p.extracted_text) = true
      then acc else acc ++ [s] := by
  rw [dedupStep, hlast]

/-- C2: for slides `A`, `B` that are not judged duplicates of one another,
the duplicate suppressor keeps the revisit sequence `[A, B, A]` intact and
collapses the consecutive repeat `[A, A, B]` to `[A, B]`. -/
theorem duplicate_suppressor_revisit (A B : SlideEntry)
    (hBA : isDuplicateText (normalize_text B.extracted_text)
      (normalize_text A.extracted_text) = false)
    (hAB : isDuplicateText (normalize_text A.extracted_text)
      (normalize_text B.extracted_text) = false) :
    remove_duplicate_slides [A, B, A] = [A, B, A] ∧
    remove_duplicate_slides [A, A, B] = [A, B] := by
  have eAB : dedupStep [A] B = [A, B] := by
    rw [dedupStep_eq [A] A B rfl, hBA]
    rw [if_neg (by simp)]
    rfl
  have eABA : dedupStep [A, B] A = [A, B, A] := by
    rw [dedupStep_eq [A, B] B A rfl, hAB]
    rw [if_neg (by simp)]
    rfl
  have eAA : dedupStep [A] A = [A] := by
    rw [dedupStep_eq [A] A A rfl, isDuplicateText_self]
    rw [if_pos rfl]
  constructor
  · show List.foldl dedupStep [A] [B, A] = [A, B, A]
    rw [List.foldl_cons, eAB, List.foldl_cons, List.foldl_nil, eABA]
  · show List.foldl dedupStep [A] [A, B] = [A, B]
    rw [List.foldl_cons, eAA, List.foldl_cons, List.foldl_nil, eAB]

/-- Witness for C2 at two concrete slides with disjoint meaningful words. -/
theorem duplicate_suppressor_revisit_witness :
    remove_duplicate_slides [sampleSlideA, sampleSlideB, sampleSlideA] =
      [sampleSlideA, sampleSlideB, sampleSlideA] ∧
    remove_duplicate_slides [sampleSlideA, sampleSlideA, sampleSlideB] =
      [sampleSlideA, sampleSlideB] := by
  have hcapBA : (extract_meaningful_words (normalize_text sampleSlideB.extracted_text) ∩
      extract_meaningful_words (normalize_text sampleSlideA.extracted_text)).card = 0 := by
    decide
  have hcupBA : (extract_meaningful_words (normalize_text sampleSlideB.extracted_text) ∪
      extract_meaningful_words (normalize_text sampleSlideA.extracted_text)).card = 7 := by
    decide
  have hcapAB : (extract_meaningful_words (normalize_text sampleSlideA.extracted_text) ∩
      extract_meaningful_words (normalize_text sampleSlideB.extracted_text)).card = 0 := by
    decide
  have hcupAB : (extract_meaningful_words (normalize_text sampleSlideA.extracted_text) ∪
      extract_meaningful_words (normalize_text sampleSlideB.extracted_text)).card = 7 := by
    decide
  have hBA : isDuplicateText (normalize_text sampleSlideB.extracted_text)
      (normalize_text sampleSlideA.extracted_text) = false := by
    rw [isDuplicateText_jaccard _ _ (by decide) (by decide) (by decide), hcapBA, hcupBA]
    norm_num
  have hAB : isDuplicateText (normalize_text sampleSlideA.extracted_text)
      (normalize_text sampleSlideB.extracted_text) = false := by
    rw [isDuplicateText_jaccard _ _ (by decide) (by decide) (by decide), hcapAB, hcupAB]
    norm_num
  exact duplicate_suppressor_revisit sampleSlideA sampleSlideB hBA hAB

/-- Branch lemma: a hash-identical frame only extends the open slide's
end time (no OCR, no event). -/
theorem detectStep_skip (cfg : DetectorConfig) (st : DetectState) (f : FrameObs)
    (h : hashSkip st f = true) :
    detectStep cfg st f =
      ({ st with current_slide :=
          st.current_slide.map (fun s => { s with end_time_ms := f.timestamp_ms }) }, []) := by
  rw [detectStep, if_pos h]

/-- Branch lemma: a low-confidence or empty-text frame records its hash
and only extends the open slide's end time (no close, no event). -/
theorem detectStep_noise (cfg : DetectorConfig) (st : DetectState) (f : FrameObs)
    (h1 : hashSkip st f = false)
    (h2 : f.confidence < cfg.ocr_confidence_threshold ∨ clean_text f.text = []) :
    detectStep cfg st f =
      ({ st with
          previous_hash := some f.hash
          current_slide :=
            st.current_slide.map (fun s => { s with end_time_ms := f.timestamp_ms }) }, []) := by
  simp only [detectStep, h1, Bool.false_eq_true, if_false]
  rw [if_pos h2]

/-- Branch lemma: the first accepted frame opens the first slide. -/
theorem detectStep_first (cfg : DetectorConfig) (st : DetectState) (f : FrameObs)
    (h1 : hashSkip st f = false)
    (hc : ¬(f.confidence < cfg.ocr_confidence_threshold))
    (ht : clean_text f.text ≠ [])
    (hprev : st.previous_text = []) :
    detectStep cfg st f =
      ({ st with
          previous_hash := some f.hash
          current_slide := some (create_slide_entry f.frame f.timestamp_ms
            (clean_text f.text) f.confidence)
          previous_text := clean_text f.text }, []) := by
  simp only [detectStep, h1, Bool.false_eq_true, if_false]
  rw [if_neg (by push_neg; exact ⟨not_lt.mp hc, ht⟩), if_pos hprev]

/-- Branch lemma: a boundary frame with an open slide closes it at the
frame timestamp (duration-gated emission), opens a new slide anchored at
the frame, and reports exactly one closure event. -/
theorem detectStep_boundary (cfg : DetectorConfig) (st : DetectState) (f : FrameObs)
    (cs : SlideEntry)
    (h1 : hashSkip st f = false)
    (hc : ¬(f.confidence < cfg.ocr_confidence_threshold))
    (ht : clean_text f.text ≠ [])
    (hprev : st.previous_text ≠ [])
    (hsim : calculate_similarity st.previous_text (clean_text f.text) SimMethod.hybrid <
      (cfg.text_similarity_threshold : ℝ))
    (hincr : (cfg.incremental_merge &&
      is_incremental_slide st.previous_text (clean_text f.text) (7 / 10)) = false)
    (hcs : st.current_slide = some cs) :
    detectStep cfg st f =
      ({ slides :=
           if cfg.min_slide_duration ≤ (f.timestamp_ms - cs.start_time_ms) / 1000
           then st.slides ++ [{ cs with end_time_ms := f.timestamp_ms }] else st.slides
         current_slide := some (create_slide_entry f.frame f.timestamp_ms
           (clean_text f.text) f.confidence)
         previous_text := clean_text f.text
         previous_hash := some f.hash },
       [({ cs with end_time_ms := f.timestamp_ms },
         decide (cfg.min_slide_duration ≤ (f.timestamp_ms - cs.start_time_ms) / 1000))]) := by
  simp only [detectStep, h1, Bool.false_eq_true, if_false]
  rw [if_neg (by push_neg; exact ⟨not_lt.mp hc, ht⟩), if_neg hprev, if_pos ⟨hsim, hincr⟩, hcs]

/-- Branch lemma: a continuing frame with an open slide extends its end
time; when judged incremental with strictly longer text it also replaces
the slide text and representative frame and advances the reference text. -/
theorem detectStep_continue (cfg : DetectorConfig) (st : DetectState) (f : FrameObs)
    (cs : SlideEntry)
    (h1 : hashSkip st f = false)
    (hc : ¬(f.confidence < cfg.ocr_confidence_threshold))
    (ht : clean_text f.text ≠ [])
    (hprev : st.previous_text ≠ [])
    (hcont : ¬(calculate_similarity st.previous_text (clean_text f.text) SimMethod.hybrid <
        (cfg.text_similarity_threshold : ℝ) ∧
      (cfg.incremental_merge &&
        is_incremental_slide st.previous_text (clean_text f.text) (7 / 10)) = false))
    (hcs : st.current_slide = some cs) :
    detectStep cfg st f =
      if (cfg.incremental_merge &&
            is_incremental_slide st.previous_text (clean_text f.text) (7 / 10)) = true ∧
          st.previous_text.length < (clean_text f.text).length then
        ({ st with
            previous_hash := some f.hash
            current_slide := some { cs with
              end_time_ms := f.timestamp_ms
              extracted_text := clean_text f.text
              frame := f.frame }
            previous_text := clean_text f.text }, [])
      else
        ({ st with
            previous_hash := some f.hash
            current_slide := some { cs with end_time_ms := f.timestamp_ms } }, []) := by
  simp only [detectStep, h1, Bool.false_eq_true, if_false]
  rw [if_neg (by push_neg; exact ⟨not_lt.mp hc, ht⟩), if_neg hprev, if_neg hcont, hcs]

/-- C3 as amended: for an accepted frame judged incremental against the
reference text with strictly longer text, the open slide's end time,
extracted text and representative frame are updated and the reference
text advances; the slide's stored OCR confidence and its start time are
left unchanged (the claim's assertion that the confidence is replaced
does not hold). -/
theorem incremental_update (cfg : DetectorConfig) (st : DetectState) (f : FrameObs)
    (cs : SlideEntry)
    (h1 : hashSkip st f = false)
    (hc : ¬(f.confidence < cfg.ocr_confidence_threshold))
    (ht : clean_text f.text ≠ [])
    (hprev : st.previous_text ≠ [])
    (hm : cfg.incremental_merge = true)
    (hi : is_incremental_slide st.previous_text (clean_text f.text) (7 / 10) = true)
    (hlen : st.previous_text.length < (clean_text f.text).length)
    (hcs : st.current_slide = some cs) :
    detectStep cfg st f =
      ({ st with
          previous_hash := some f.hash
          current_slide := some { cs with
            end_time_ms := f.timestamp_ms
            extracted_text := clean_text f.text
            frame := f.frame }
          previous_text := clean_text f.text }, []) ∧
    ({ cs with
        end_time_ms := f.timestamp_ms
        extracted_text := clean_text f.text
        frame := f.frame } : SlideEntry).ocr_confidence = cs.ocr_confidence ∧
    ({ cs with
        end_time_ms := f.timestamp_ms
        extracted_text := clean_text f.text
        frame := f.frame } : SlideEntry).start_time_ms = cs.start_time_ms := by
  have hflag : (cfg.incremental_merge &&
      is_incremental_slide st.previous_text (clean_text f.text) (7 / 10)) = true := by
    rw [hm, hi]
    rfl
  have hcont : ¬(calculate_similarity st.previous_text (clean_text f.text) SimMethod.hybrid <
      (cfg.text_similarity_threshold : ℝ) ∧
    (cfg.incremental_merge &&
      is_incremental_slide st.previous_text (clean_text f.text) (7 / 10)) = false) := by
    intro hand
    rw [hflag] at hand
    exact absurd hand.2 (by simp)
  rw [detectStep_continue cfg st f cs h1 hc ht hprev hcont hcs, if_pos ⟨hflag, hlen⟩]
  exact ⟨rfl, rfl, rfl⟩

/-- Witness for the amended C3 at a concrete incremental frame. -/
theorem incremental_update_witness :
    detectStep sampleConfig sampleOpenState sampleIncrFrame =
      ({ sampleOpenState with
          previous_hash := some sampleIncrFrame.hash
          current_slide := some { sampleOpenSlide with
            end_time_ms := sampleIncrFrame.timestamp_ms
            extracted_text := clean_text sampleIncrFrame.text
            frame := sampleIncrFrame.frame }
          previous_text := clean_text sampleIncrFrame.text }, []) :=
  (incremental_update sampleConfig sampleOpenState sampleIncrFrame sampleOpenSlide
    (by decide)
    (by show ¬((7 / 10 : ℚ) < 7 / 10); norm_num)
    (by decide) (by decide) (by decide) (by decide) (by decide) rfl).1

/-- Counterexample for C3: at the same concrete incremental frame the open
slide's text and representative frame are replaced, but its stored OCR
confidence stays at the old `0.9` even though the frame's confidence is
`0.7`; the claim's "its OCR confidence ... all replaced" is false. -/
theorem incremental_update_confidence_not_replaced :
    ((detectStep sampleConfig sampleOpenState sampleIncrFrame).1.current_slide.map
      (fun s => s.ocr_confidence)) = some (9 / 10) ∧
    ((detectStep sampleConfig sampleOpenState sampleIncrFrame).1.current_slide.map
      (fun s => s.extracted_text)) = some ("ab cd".toList) ∧
    sampleIncrFrame.confidence = 7 / 10 ∧ (9 / 10 : ℚ) ≠ 7 / 10 := by
  have hflag : (sampleConfig.incremental_merge && is_incremental_slide
      sampleOpenState.previous_text (clean_text sampleIncrFrame.text) (7 / 10)) = true := by
    decide
  have hcont : ¬(calculate_similarity sampleOpenState.previous_text
      (clean_text sampleIncrFrame.text) SimMethod.hybrid <
      (sampleConfig.text_similarity_threshold : ℝ) ∧
    (sampleConfig.incremental_merge && is_incremental_slide
      sampleOpenState.previous_text (clean_text sampleIncrFrame.text) (7 / 10)) = false) := by
    intro hand
    rw [hflag] at hand
    exact absurd hand.2 (by simp)
  rw [detectStep_continue sampleConfig sampleOpenState sampleIncrFrame sampleOpenSlide
    (by decide) (by show ¬((7 / 10 : ℚ) < 7 / 10); norm_num) (by decide) (by decide)
    hcont rfl, if_pos ⟨hflag, by decide⟩]
  refine ⟨rfl, rfl, rfl, by norm_num⟩

/-- C8 as amended: a frame that passes the hash filter but fails the OCR
gate (low confidence or empty cleaned text) stores the frame hash as the
new previous hash and, when a slide is open, extends only its end time;
no slide is closed or emitted, the slides list, the reference text and
every other slide field are unchanged.  (The claim's assertion that the
state is wholly unchanged when no slide is open is false: the previous
hash is updated.) -/
theorem noise_frame_effect (cfg : DetectorConfig) (st : DetectState) (f : FrameObs)
    (h1 : hashSkip st f = false)
    (h2 : f.confidence < cfg.ocr_confidence_threshold ∨ clean_text f.text = []) :
    (detectStep cfg st f).1 =
      { st with
          previous_hash := some f.hash
          current_slide :=
            st.current_slide.map (fun s => { s with end_time_ms := f.timestamp_ms }) } ∧
    (detectStep cfg st f).2 = [] ∧
    (detectStep cfg st f).1.slides = st.slides ∧
    (detectStep cfg st f).1.previous_text = st.previous_text ∧
    (∀ s : SlideEntry, st.current_slide = some s →
      (detectStep cfg st f).1.current_slide = some { s with end_time_ms := f.timestamp_ms }) ∧
    (st.current_slide = none → (detectStep cfg st f).1.current_slide = none) := by
  rw [detectStep_noise cfg st f h1 h2]
  refine ⟨rfl, rfl, rfl, rfl, fun s hs => ?_, fun hn => ?_⟩
  · show st.current_slide.map _ = _
    rw [hs]
    rfl
  · show st.current_slide.map _ = _
    rw [hn]
    rfl

/-- Witness for the amended C8 at a concrete noise frame over an open
slide. -/
theorem noise_frame_effect_witness :
    (detectStep sampleConfig sampleOpenState sampleNoiseFrame).1 =
      { sampleOpenState with
          previous_hash := some sampleNoiseFrame.hash
          current_slide := some { sampleOpenSlide with
            end_time_ms := sampleNoiseFrame.timestamp_ms } } ∧
    (detectStep sampleConfig sampleOpenState sampleNoiseFrame).2 = [] := by
  have h := noise_frame_effect sampleConfig sampleOpenState sampleNoiseFrame
    (by decide) (Or.inl (by show (1 / 10 : ℚ) < 7 / 10; norm_num))
  refine ⟨?_, h.2.1⟩
  rw [h.1]
  rfl

/-- Counterexample for C8: a noise frame processed in the idle state (no
open slide) does change the segmenter state — the stored previous hash
moves from `5` to the frame's hash `7`. -/
theorem noise_frame_changes_idle_state :
    (detectStep sampleConfig sampleIdleState sampleNoiseFrame).1.previous_hash = some 7 ∧
    sampleIdleState.previous_hash = some 5 ∧
    (detectStep sampleConfig sampleIdleState sampleNoiseFrame).1 ≠ sampleIdleState := by
  have h := noise_frame_effect sampleConfig sampleIdleState sampleNoiseFrame
    (by decide) (Or.inl (by show (1 / 10 : ℚ) < 7 / 10; norm_num))
  have hh : (detectStep sampleConfig sampleIdleState sampleNoiseFrame).1.previous_hash =
      some 7 := by
    rw [h.1]
    rfl
  refine ⟨hh, rfl, fun heq => ?_⟩
  rw [heq] at hh
  simp [sampleIdleState] at hh

/-- Texts with disjoint token streams have tf-idf cosine similarity `0`. -/
theorem tfidf_similarity_disjoint (a b : PyStr)
    (hdisj : ∀ w ∈ sklearnTokens a, w ∉ sklearnTokens b)
    (hne : sklearnTokens a ≠ [] ∨ sklearnTokens b ≠ []) :
    tfidf_similarity a b = 0 := by
  simp only [tfidf_similarity]
  rw [if_neg (tfidfVocab_ne_nil _ _ hne)]
  have hdot : dotVocab (tfidfVocab (sklearnTokens a) (sklearnTokens b))
      (tfidfWeight (sklearnTokens a) (sklearnTokens b) (sklearnTokens a))
      (tfidfWeight (sklearnTokens a) (sklearnTokens b) (sklearnTokens b)) = 0 := by
    rw [dotVocab]
    apply List.sum_eq_zero
    intro x hx
    obtain ⟨w, hw, rfl⟩ := List.mem_map.mp hx
    by_cases hwa : w ∈ sklearnTokens a
    · have hz : termCount (sklearnTokens b) w = 0 := by
        rw [termCount, List.count_eq_zero]
        exact hdisj w hwa
      simp [tfidfWeight, hz]
    · have hz : termCount (sklearnTokens a) w = 0 := by
        rw [termCount, List.count_eq_zero]
        exact hwa
      simp [tfidfWeight, hz]
  rw [hdot, zero_div]

/-- The edit-distance similarity of the concrete texts `"ab"` and `"cd"`
is `0`. -/
theorem levenshtein_similarity_ab_cd :
    levenshtein_similarity "ab".toList "cd".toList = 0 := by
  simp only [levenshtein_similarity]
  rw [show pyStrip (pyLower "ab".toList) = "ab".toList from by decide,
    show pyStrip (pyLower "cd".toList) = "cd".toList from by decide,
    show levenshtein Levenshtein.defaultCost "ab".toList "cd".toList = 2 from by decide]
  norm_num

/-- The hybrid similarity of the concrete texts `"ab"` and `"cd"` is `0`,
in particular below the default threshold `0.75`. -/
theorem hybrid_ab_cd_lt :
    calculate_similarity "ab".toList "cd".toList SimMethod.hybrid < ((3 / 4 : ℚ) : ℝ) := by
  have htf : tfidf_similarity "ab".toList "cd".toList = 0 :=
    tfidf_similarity_disjoint _ _ (by decide) (Or.inl (by decide))
  unfold calculate_similarity
  rw [if_neg (by decide), if_neg (by decide)]
  show ((levenshtein_similarity "ab".toList "cd".toList : ℝ) +
      tfidf_similarity "ab".toList "cd".toList) / 2 < _
  rw [levenshtein_similarity_ab_cd, htf]
  norm_num

/-- The concrete text `"cd"` is not an incremental continuation of
`"ab"`. -/
theorem is_incremental_ab_cd :
    is_incremental_slide "ab".toList "cd".toList (7 / 10) = false := by
  simp only [is_incremental_slide]
  rw [if_neg (by decide), if_neg (by decide)]
  have hcap : (((pySplit (pyLower "ab".toList)).toFinset ∩
      (pySplit (pyLower "cd".toList)).toFinset).card) = 0 := by decide
  have hcard : ((pySplit (pyLower "ab".toList)).toFinset).card = 1 := by decide
  rw [hcap, hcard, decide_eq_false_iff_not]
  norm_num

/-- C7: whenever a slide is closed — at a detected boundary or at stream
end — it is appended to the output exactly when its duration
`(end_time_ms - start_time_ms) / 1000` reaches `min_slide_duration`;
otherwise it is silently dropped. -/
theorem min_duration_gate :
    (∀ (cfg : DetectorConfig) (st : DetectState) (f : FrameObs) (cs : SlideEntry),
      hashSkip st f = false →
      ¬(f.confidence < cfg.ocr_confidence_threshold) →
      clean_text f.text ≠ [] →
      st.previous_text ≠ [] →
      calculate_similarity st.previous_text (clean_text f.text) SimMethod.hybrid <
        (cfg.text_similarity_threshold : ℝ) →
      (cfg.incremental_merge &&
        is_incremental_slide st.previous_text (clean_text f.text) (7 / 10)) = false →
      st.current_slide = some cs →
      (detectStep cfg st f).1.slides =
        if cfg.min_slide_duration ≤ (f.timestamp_ms - cs.start_time_ms) / 1000
        then st.slides ++ [{ cs with end_time_ms := f.timestamp_ms }] else st.slides) ∧
    (∀ (cfg : DetectorConfig) (st : DetectState) (cs : SlideEntry),
      st.current_slide = some cs →
      closeFinal cfg st =
        if cfg.min_slide_duration ≤ (cs.end_time_ms - cs.start_time_ms) / 1000
        then st.slides ++ [cs] else st.slides) := by
  constructor
  · intro cfg st f cs h1 hc ht hprev hsim hincr hcs
    rw [detectStep_boundary cfg st f cs h1 hc ht hprev hsim hincr hcs]
  · intro cfg st cs hcs
    rw [closeFinal, hcs]

/-- Witness for C7: a boundary arriving `2000` ms after the slide opened
drops it under `min_slide_duration = 3.0`, and the end-of-stream closure
of a slide spanning `3500` ms retains it. -/
theorem min_duration_gate_witness :
    (detectStep sampleConfig sampleOpenState sampleBoundaryFrame).1.slides = [] ∧
    closeFinal sampleConfig sampleLongState = [sampleLongSlide] := by
  constructor
  · have h := min_duration_gate.1 sampleConfig sampleOpenState sampleBoundaryFrame
      sampleOpenSlide (by decide)
      (by show ¬((9 / 10 : ℚ) < 7 / 10); norm_num)
      (by decide) (by decide)
      (by show calculate_similarity ("ab".toList) (clean_text sampleBoundaryFrame.text)
            SimMethod.hybrid < ((3 / 4 : ℚ) : ℝ)
          rw [show clean_text sampleBoundaryFrame.text = "cd".toList from by decide]
          exact hybrid_ab_cd_lt)
      (by show (sampleConfig.incremental_merge && is_incremental_slide
            ("ab".toList) (clean_text sampleBoundaryFrame.text) (7 / 10)) = false
          rw [show clean_text sampleBoundaryFrame.text = "cd".toList from by decide,
            show sampleConfig.incremental_merge = true from rfl, is_incremental_ab_cd]
          rfl)
      rfl
    rw [h, if_neg (by show ¬((3 : ℚ) ≤ (2000 - 0) / 1000); norm_num)]
    rfl
  · have h := min_duration_gate.2 sampleConfig sampleLongState sampleLongSlide rfl
    rw [h, if_pos (by show (3 : ℚ) ≤ (3500 - 0) / 1000; norm_num)]
    rfl

/-- Branch lemma: a boundary frame with no open slide just opens a new
slide (nothing to close, no event). -/
theorem detectStep_boundary_none (cfg : DetectorConfig) (st : DetectState) (f : FrameObs)
    (h1 : hashSkip st f = false)
    (hc : ¬(f.confidence < cfg.ocr_confidence_threshold))
    (ht : clean_text f.text ≠ [])
    (hprev : st.previous_text ≠ [])
    (hbound : calculate_similarity st.previous_text (clean_text f.text) SimMethod.hybrid <
        (cfg.text_similarity_threshold : ℝ) ∧
      (cfg.incremental_merge &&
        is_incremental_slide st.previous_text (clean_text f.text) (7 / 10)) = false)
    (hcs : st.current_slide = none) :
    detectStep cfg st f =
      ({ st with
          previous_hash := some f.hash
          current_slide := some (create_slide_entry f.frame f.timestamp_ms
            (clean_text f.text) f.confidence)
          previous_text := clean_text f.text }, []) := by
  simp only [detectStep, h1, Bool.false_eq_true, if_false]
  rw [if_neg (by push_neg; exact ⟨not_lt.mp hc, ht⟩), if_neg hprev, if_pos hbound, hcs]

/-- Branch lemma: a continuing frame with no open slide only records the
frame hash. -/
theorem detectStep_continue_none (cfg : DetectorConfig) (st : DetectState) (f : FrameObs)
    (h1 : hashSkip st f = false)
    (hc : ¬(f.confidence < cfg.ocr_confidence_threshold))
    (ht : clean_text f.text ≠ [])
    (hprev : st.previous_text ≠ [])
    (hcont : ¬(calculate_similarity st.previous_text (clean_text f.text) SimMethod.hybrid <
        (cfg.text_similarity_threshold : ℝ) ∧
      (cfg.incremental_merge &&
        is_incremental_slide st.previous_text (clean_text f.text) (7 / 10)) = false))
    (hcs : st.current_slide = none) :
    detectStep cfg st f = ({ st with previous_hash := some f.hash }, []) := by
  simp only [detectStep, h1, Bool.false_eq_true, if_false]
  rw [if_neg (by push_neg; exact ⟨not_lt.mp hc, ht⟩), if_neg hprev, if_neg hcont, hcs]

/-- The loop invariant is preserved by every step of the detection loop. -/
theorem detectInv_step (cfg : DetectorConfig) (p : DetectState × List CloseEvent)
    (f : FrameObs) (h : DetectInv p) : DetectInv (stepWithEvents cfg p f) := by
  obtain ⟨st, evs⟩ := p
  obtain ⟨h0, hpt, h2, h3⟩ := h
  show DetectInv ((detectStep cfg st f).1, evs ++ (detectStep cfg st f).2)
  by_cases hskip : hashSkip st f = true
  · rw [detectStep_skip cfg st f hskip]
    refine ⟨?_, ?_, ?_, by simpa using h3⟩
    · intro hn
      simp only [List.append_nil]
      exact h0 (Option.map_eq_none'.mp hn)
    · intro hp
      simp only [List.append_nil]
      exact hpt hp
    · intro s e hs he
      obtain ⟨a, ha, hupd⟩ := Option.map_eq_some'.mp hs
      rw [List.append_nil] at he
      rw [← hupd]
      exact h2 a e ha he
  · have hskip' : hashSkip st f = false := by
      cases hh : hashSkip st f
      · rfl
      · exact absurd hh hskip
    by_cases hnoise : f.confidence < cfg.ocr_confidence_threshold ∨ clean_text f.text = []
    · rw [detectStep_noise cfg st f hskip' hnoise]
      refine ⟨?_, ?_, ?_, by simpa using h3⟩
      · intro hn
        simp only [List.append_nil]
        exact h0 (Option.map_eq_none'.mp hn)
      · intro hp
        simp only [List.append_nil]
        exact hpt hp
      · intro s e hs he
        obtain ⟨a, ha, hupd⟩ := Option.map_eq_some'.mp hs
        rw [List.append_nil] at he
        rw [← hupd]
        exact h2 a e ha he
    · push_neg at hnoise
      obtain ⟨hc', ht⟩ := hnoise
      have hc : ¬(f.confidence < cfg.ocr_confidence_threshold) := not_lt.mpr hc'
      by_cases hfirst : st.previous_text = []
      · rw [detectStep_first cfg st f hskip' hc ht hfirst]
        have hevs : evs = [] := hpt hfirst
        subst hevs
        refine ⟨fun _ => rfl, fun _ => rfl, ?_, by exact List.chain'_nil⟩
        intro s e _ he
        simp at he
      · by_cases hbound : calculate_similarity st.previous_text (clean_text f.text)
            SimMethod.hybrid < (cfg.text_similarity_threshold : ℝ) ∧
          (cfg.incremental_merge &&
            is_incremental_slide st.previous_text (clean_text f.text) (7 / 10)) = false
        · cases hcs : st.current_slide with
          | some cs =>
            rw [detectStep_boundary cfg st f cs hskip' hc ht hfirst hbound.1 hbound.2 hcs]
            refine ⟨fun hn => by simp at hn, fun hp => absurd hp ht, ?_, ?_⟩
            · intro s e hs he
              have hs' := Option.some.inj hs
              rw [List.getLast?_concat] at he
              have he' := Option.some.inj he
              rw [← hs', ← he']
              rfl
            · rw [List.chain'_append]
              refine ⟨h3, List.chain'_singleton _, ?_⟩
              intro x hx y hy
              simp only [List.head?_cons, Option.mem_def, Option.some.injEq] at hy
              rw [← hy]
              exact (h2 cs x hcs hx).symm
          | none =>
            rw [detectStep_boundary_none cfg st f hskip' hc ht hfirst hbound hcs]
            have hevs : evs = [] := h0 hcs
            subst hevs
            refine ⟨fun hn => by simp at hn, fun hp => absurd hp ht, ?_,
              by exact List.chain'_nil⟩
            intro s e _ he
            simp at he
        · cases hcs : st.current_slide with
          | some cs =>
            rw [detectStep_continue cfg st f cs hskip' hc ht hfirst hbound hcs]
            split_ifs with hif
            · refine ⟨fun hn => by simp at hn, fun hp => absurd hp ht, ?_,
                by simpa using h3⟩
              intro s e hs he
              have hs' := Option.some.inj hs
              rw [List.append_nil] at he
              rw [← hs']
              exact h2 cs e hcs he
            · refine ⟨fun hn => by simp at hn, ?_, ?_, by simpa using h3⟩
              · intro hp
                simp only [List.append_nil]
                exact hpt hp
              · intro s e hs he
                have hs' := Option.some.inj hs
                rw [List.append_nil] at he
                rw [← hs']
                exact h2 cs e hcs he
          | none =>
            rw [detectStep_continue_none cfg st f hskip' hc ht hfirst hbound hcs]
            refine ⟨?_, ?_, ?_, by simpa using h3⟩
            · intro _
              simp only [List.append_nil]
              exact h0 hcs
            · intro hp
              simp only [List.append_nil]
              exact hpt hp
            · intro s e hs _
              exact absurd (hcs ▸ hs : (none : Option SlideEntry) = some s) (by simp)

/-- The loop invariant is preserved along any frame stream. -/
theorem detectInv_run (cfg : DetectorConfig) (frames : List FrameObs) :
    ∀ p : DetectState × List CloseEvent, DetectInv p →
      DetectInv (frames.foldl (stepWithEvents cfg) p) := by
  induction frames with
  | nil => exact fun p h => h
  | cons f fs ih =>
    intro p h
    rw [List.foldl_cons]
    exact ih _ (detectInv_step cfg p f h)

/-- Consecutive closure events of a full detection run abut in time. -/
theorem detectEvents_chain (cfg : DetectorConfig) (frames : List FrameObs) :
    List.Chain' (fun a b : CloseEvent => a.1.end_time_ms = b.1.start_time_ms)
      (detectEvents cfg frames) := by
  have hinv := detectInv_run cfg frames (initState, [])
    ⟨fun _ => rfl, fun _ => rfl, by intro s e _ he; simp at he, by exact List.chain'_nil⟩
  obtain ⟨h0, hpt, h2, h3⟩ := hinv
  show List.Chain' _ ((frames.foldl (stepWithEvents cfg) (initState, [])).2 ++
    closeFinalEvents cfg (frames.foldl (stepWithEvents cfg) (initState, [])).1)
  rw [closeFinalEvents]
  cases hcs : (frames.foldl (stepWithEvents cfg) (initState, [])).1.current_slide with
  | none => simpa using h3
  | some cs =>
    rw [List.chain'_append]
    refine ⟨h3, List.chain'_singleton _, ?_⟩
    intro x hx y hy
    simp only [List.head?_cons, Option.mem_def, Option.some.injEq] at hy
    rw [← hy]
    exact (h2 cs x hcs hx).symm

/-- Adjacent elements of a chained list are related. -/
theorem chain'_adjacent {α : Type} (R : α → α → Prop) (l1 l2 l : List α) (a b : α)
    (hc : List.Chain' R l) (hl : l = l1 ++ a :: b :: l2) : R a b := by
  subst hl
  induction l1 with
  | nil => exact (List.chain'_cons.mp hc).1
  | cons c cs ih => exact ih (List.Chain'.tail hc)

/-- C10: at a detected boundary the closed slide's end time is set to the
triggering frame's timestamp and the newly opened slide starts at that
same timestamp; consequently, in the closure trace of any run, two
consecutively emitted slides with no dropped slide between them satisfy
`earlier.end_time_ms = later.start_time_ms`. -/
theorem boundary_continuity :
    (∀ (cfg : DetectorConfig) (st : DetectState) (f : FrameObs) (cs : SlideEntry),
      hashSkip st f = false →
      ¬(f.confidence < cfg.ocr_confidence_threshold) →
      clean_text f.text ≠ [] →
      st.previous_text ≠ [] →
      calculate_similarity st.previous_text (clean_text f.text) SimMethod.hybrid <
        (cfg.text_similarity_threshold : ℝ) →
      (cfg.incremental_merge &&
        is_incremental_slide st.previous_text (clean_text f.text) (7 / 10)) = false →
      st.current_slide = some cs →
      (detectStep cfg st f).2 =
        [({ cs with end_time_ms := f.timestamp_ms },
          decide (cfg.min_slide_duration ≤ (f.timestamp_ms - cs.start_time_ms) / 1000))] ∧
      (detectStep cfg st f).1.current_slide =
        some (create_slide_entry f.frame f.timestamp_ms (clean_text f.text) f.confidence) ∧
      ({ cs with end_time_ms := f.timestamp_ms } : SlideEntry).end_time_ms = f.timestamp_ms ∧
      (create_slide_entry f.frame f.timestamp_ms (clean_text f.text)
        f.confidence).start_time_ms = f.timestamp_ms) ∧
    (∀ (cfg : DetectorConfig) (frames : List FrameObs) (l1 l2 : List CloseEvent)
      (a b : CloseEvent),
      detectEvents cfg frames = l1 ++ a :: b :: l2 →
      a.2 = true → b.2 = true →
      a.1.end_time_ms = b.1.start_time_ms) := by
  constructor
  · intro cfg st f cs h1 hc ht hprev hsim hincr hcs
    rw [detectStep_boundary cfg st f cs h1 hc ht hprev hsim hincr hcs]
    exact ⟨rfl, rfl, rfl, rfl⟩
  · intro cfg frames l1 l2 a b hev _ _
    exact chain'_adjacent _ l1 l2 _ a b (detectEvents_chain cfg frames) hev

/-- Witness for C10: the boundary clause at the concrete boundary frame,
and the trace clause on the three-frame sample run, whose two emitted
slides share the `4000` ms boundary timestamp. -/
theorem boundary_continuity_witness :
    (detectStep sampleConfig sampleOpenState sampleBoundaryFrame).2 =
      [({ sampleOpenSlide with end_time_ms := sampleBoundaryFrame.timestamp_ms },
        decide (sampleConfig.min_slide_duration ≤
          (sampleBoundaryFrame.timestamp_ms - sampleOpenSlide.start_time_ms) / 1000))] ∧
    sampleRunClosed1.end_time_ms = sampleRunClosed2.start_time_ms := by
  constructor
  · exact (boundary_continuity.1 sampleConfig sampleOpenState sampleBoundaryFrame
      sampleOpenSlide (by decide)
      (by show ¬((9 / 10 : ℚ) < 7 / 10); norm_num) (by decide) (by decide)
      (by show calculate_similarity ("ab".toList) (clean_text sampleBoundaryFrame.text)
            SimMethod.hybrid < ((3 / 4 : ℚ) : ℝ)
          rw [show clean_text sampleBoundaryFrame.text = "cd".toList from by decide]
          exact hybrid_ab_cd_lt)
      (by show (sampleConfig.incremental_merge && is_incremental_slide
            ("ab".toList) (clean_text sampleBoundaryFrame.text) (7 / 10)) = false
          rw [show clean_text sampleBoundaryFrame.text = "cd".toList from by decide,
            show sampleConfig.incremental_merge = true from rfl, is_incremental_ab_cd]
          rfl)
      rfl).1
  · have hs1 : detectStep sampleConfig initState sampleRunFrame1 = (sampleRunState1, []) := by
      rw [detectStep_first sampleConfig initState sampleRunFrame1 (by decide)
        (by show ¬((9 / 10 : ℚ) < 7 / 10); norm_num) (by decide) rfl]
      rfl
    have hdur1 : sampleConfig.min_slide_duration ≤
        (sampleRunFrame2.timestamp_ms - sampleRunSlide1.start_time_ms) / 1000 := by
      show (3 : ℚ) ≤ (4000 - 0) / 1000
      norm_num
    have hs2 : detectStep sampleConfig sampleRunState1 sampleRunFrame2 =
        (sampleRunState2, [(sampleRunClosed1, true)]) := by
      rw [detectStep_boundary sampleConfig sampleRunState1 sampleRunFrame2 sampleRunSlide1
        (by decide) (by show ¬((9 / 10 : ℚ) < 7 / 10); norm_num) (by decide) (by decide)
        (by show calculate_similarity sampleRunState1.previous_text
              (clean_text sampleRunFrame2.text) SimMethod.hybrid < ((3 / 4 : ℚ) : ℝ)
            rw [show sampleRunState1.previous_text = "ab".toList from rfl,
              show clean_text sampleRunFrame2.text = "cd".toList from by decide]
            exact hybrid_ab_cd_lt)
        (by show (sampleConfig.incremental_merge && is_incremental_slide
              sampleRunState1.previous_text (clean_text sampleRunFrame2.text) (7 / 10)) = false
            rw [show sampleRunState1.previous_text = "ab".toList from rfl,
              show clean_text sampleRunFrame2.text = "cd".toList from by decide,
              show sampleConfig.incremental_merge = true from rfl, is_incremental_ab_cd]
            rfl)
        rfl]
      rw [if_pos hdur1, decide_eq_true hdur1]
      rfl
    have hflag3 : (sampleConfig.incremental_merge && is_incremental_slide
        sampleRunState2.previous_text (clean_text sampleRunFrame3.text) (7 / 10)) = true := by
      rw [show sampleRunState2.previous_text = "cd".toList from rfl,
        show clean_text sampleRunFrame3.text = "cd".toList from by decide]
      rw [show sampleConfig.incremental_merge = true from rfl]
      rw [show is_incremental_slide ("cd".toList) ("cd".toList) (7 / 10) = true from by
        simp only [is_incremental_slide]
        rw [if_pos (by decide)]]
      rfl
    have hs3 : detectStep sampleConfig sampleRunState2 sampleRunFrame3 =
        (sampleRunState3, []) := by
      rw [detectStep_continue sampleConfig sampleRunState2 sampleRunFrame3 sampleRunSlide2
        (by decide) (by show ¬((9 / 10 : ℚ) < 7 / 10); norm_num) (by decide) (by decide)
        (by intro hand
            rw [hflag3] at hand
            exact absurd hand.2 (by simp))
        rfl]
      rw [if_neg (by rintro ⟨-, hl⟩; exact absurd hl (by decide))]
      rfl
    have hfold : sampleRun.foldl (stepWithEvents sampleConfig) (initState, []) =
        (sampleRunState3, [(sampleRunClosed1, true)]) := by
      show List.foldl (stepWithEvents sampleConfig) (initState, [])
        [sampleRunFrame1, sampleRunFrame2, sampleRunFrame3] = _
      rw [List.foldl_cons, List.foldl_cons, List.foldl_cons, List.foldl_nil]
      simp only [stepWithEvents, hs1, hs2, hs3, List.nil_append, List.append_nil]
    have hdur2 : sampleConfig.min_slide_duration ≤
        (sampleRunClosed2.end_time_ms - sampleRunClosed2.start_time_ms) / 1000 := by
      show (3 : ℚ) ≤ (8000 - 4000) / 1000
      norm_num
    have hev : detectEvents sampleConfig sampleRun =
        [(sampleRunClosed1, true), (sampleRunClosed2, true)] := by
      show (sampleRun.foldl (stepWithEvents sampleConfig) (initState, [])).2 ++
        closeFinalEvents sampleConfig
          (sampleRun.foldl (stepWithEvents sampleConfig) (initState, [])).1 = _
      rw [hfold]
      show [(sampleRunClosed1, true)] ++
        [(sampleRunClosed2, decide (sampleConfig.min_slide_duration ≤
          (sampleRunClosed2.end_time_ms - sampleRunClosed2.start_time_ms) / 1000))] = _
      rw [decide_eq_true hdur2]
      rfl
    exact boundary_continuity.2 sampleConfig sampleRun [] []
      (sampleRunClosed1, true) (sampleRunClosed2, true) hev rfl rfl
